import Mathlib

/-!
# Verification of the Sist-Alici transactional settlement engine

Shallow embedding of `SalesService` (sales/order settlement engine, file
`src/application/services/sales.service.ts`, full variant with encargos) and of
the money helpers in `src/core/utils/currency.ts` and the transaction wrapper in
`src/infrastructure/database/turso.ts`.

Modelling conventions:
* JavaScript `number` values are modelled as `ℚ` (every rational is finite, so
  the `Number.isFinite` guards of the source are vacuous in the model and noted
  where they occur).  `Math.round` is `round : ℚ → ℤ`, i.e. `⌊x + 1/2⌋`, which
  agrees with JS `Math.round` on all inputs including negative halves.
* Integer "cents" (minor units) are `ℤ`.
* The relational store is a `DB` structure of lists of rows; a SQL point update
  `UPDATE t SET ... WHERE id = ?` is a `List.map` that rewrites every row with
  that id (ids are primary keys, so at most one row matches).
* Each service method that runs inside `withTursoTransaction` is embedded in
  state-passing style `DB → DB × Except SalesError α`; the transaction wrapper
  restores the initial state on error, exactly like the source's rollback.
* Generated UUIDs and the current date are taken as parameters.
-/

namespace SistAlici

/-- `toCents` from `src/core/utils/currency.ts`: `Math.round(value * 100)`.
The source first rejects non-finite numbers; every `ℚ` is finite. -/
def toCents (value : ℚ) : ℤ := round (value * 100)

/-- `fromCents` from `src/core/utils/currency.ts` (named `centsToAmount` in an
older revision): `Number((cents / 100).toFixed(2))`.  On the integer cents it is
applied to, `(cents / 100).toFixed(2)` is exact, so the result is `cents / 100`. -/
def fromCents (cents : ℤ) : ℚ := (cents : ℚ) / 100

/-- Row of the `productos` table as read by `SalesService.fetchProductoById`:
`SELECT id, nombre, stock_disponible, precio_unitario, precio_venta`. -/
structure Producto where
  id : String
  nombre : String
  stockDisponible : ℚ
  precioUnitario : Option ℚ
  precioVenta : Option ℚ
deriving Repr, DecidableEq

/-- `DetallePago` from `src/core/entities/venta.entity.ts`: a payment line with
currency code, amount in that currency, and an optional explicit exchange rate. -/
structure DetallePago where
  moneda : String
  cantidad : ℚ
  tasa : Option ℚ
deriving Repr, DecidableEq

/-- Cart line input (`EncargoItemInput` in the source): product id and quantity. -/
structure ItemInput where
  productoId : String
  cantidad : ℚ
deriving Repr, DecidableEq

/-- The distinct errors thrown by the engine (the source throws `Error` values
with Spanish messages; one constructor per distinct message/site). -/
inductive SalesError where
  | emptyItems
  | emptyPagos
  | missingUser
  | invalidQuantity
  | productNotFound (id : String)
  | insufficientStock (nombre : String)
  | missingPrice (nombre : String)
  | invalidDiscount
  | invalidExchangeRate
  | invalidPaymentAmount
  | insufficientPayment
  | saleNotFound
  | orderNotFound
  | orderNotPending
  | orderEmpty
  | invalidDepositAmount
  | invalidCustomer
  | invalidDeliveryDate
deriving Repr, DecidableEq

/-- JS `String.prototype.trim()`: strip whitespace from both ends.  (Core's
`String.trim` has the same meaning but does not reduce in the kernel, so the
model works on the character list.) -/
def trimChars (s : String) : String :=
  ⟨((s.data.dropWhile Char.isWhitespace).reverse.dropWhile Char.isWhitespace).reverse⟩

/-- JS `String.prototype.toUpperCase()` on the ASCII range used by currency
codes. -/
def toUpperChars (s : String) : String := ⟨s.data.map Char.toUpper⟩

/-- `pago.moneda.trim().toUpperCase()` as done throughout the service. -/
def normalizeMoneda (m : String) : String := toUpperChars (trimChars m)

/-- `SalesService.convertirPagoACents`: converts one payment line to integer
cents in the base currency (NIO), given the system default exchange rate. -/
def convertirPagoACents (pago : DetallePago) (tasaCambioBase : ℚ) :
    Except SalesError ℤ :=
  if pago.cantidad ≤ 0 then .error .invalidPaymentAmount
  else if normalizeMoneda pago.moneda = "USD" then
    let tasa := pago.tasa.getD tasaCambioBase
    if tasa ≤ 0 then .error .invalidExchangeRate
    else .ok (round (pago.cantidad * tasa * 100))
  else
    .ok (toCents pago.cantidad)

/-- The `pagosNormalizados` mapping at the top of `SalesService.crearVenta`:
trims/uppercases the currency and, for USD, resolves the effective rate
(explicit rate if present, else the system default) and rejects a
non-positive rate; non-USD payments get their rate cleared. -/
def normalizarPago (pago : DetallePago) (tasaCambioBase : ℚ) :
    Except SalesError DetallePago :=
  let moneda := normalizeMoneda pago.moneda
  if moneda = "USD" then
    let tasa := pago.tasa.getD tasaCambioBase
    if tasa ≤ 0 then .error .invalidExchangeRate
    else .ok { pago with moneda := moneda, tasa := some tasa }
  else .ok { pago with moneda := moneda, tasa := none }

/-- `SalesService.obtenerTasaCambio`: the config row's value when positive
(and finite, vacuous on `ℚ`), else the constructor-supplied fallback when
positive, else `1`. `configTasaCambio = none` covers both a missing config row
and a stored value that fails `Number.isFinite`. -/
def obtenerTasaCambio (configTasaCambio : Option ℚ) (tasaCambioFallback : Option ℚ) : ℚ :=
  match configTasaCambio with
  | some v =>
      if 0 < v then v
      else match tasaCambioFallback with
           | some f => if 0 < f then f else 1
           | none => 1
  | none =>
      match tasaCambioFallback with
      | some f => if 0 < f then f else 1
      | none => 1

/-- Row of `venta_items` as inserted by `crearVenta`: product id, quantity,
unit-price snapshot in cents, and line subtotal in cents. -/
structure VentaItemRow where
  productoId : String
  cantidad : ℚ
  precioUnitarioCents : ℤ
  subtotalCents : ℤ
deriving Repr, DecidableEq

/-- Row of `venta_pagos` as inserted by `crearVenta`: normalized currency,
`toCents(pago.cantidad)`, and the resolved rate (NULL for the base currency). -/
structure VentaPagoRow where
  moneda : String
  cantidadCents : ℤ
  tasa : Option ℚ
deriving Repr, DecidableEq

/-- The `tipo_venta` column: `'DIRECTA' | 'ENCARGO'`. -/
inductive TipoVenta where
  | directa
  | encargo
deriving Repr, DecidableEq

/-- A persisted sale: the `ventas` header row together with its owned
`venta_items` and `venta_pagos` child rows (they are cascade-deleted with the
header, so one structure models all three tables). `totalCents` is the
`total_nio` column (net of discount, integer cents). -/
structure Venta where
  id : String
  totalCents : ℤ
  descuentoCents : ℤ
  items : List VentaItemRow
  pagos : List VentaPagoRow
  usuarioId : String
  tipoVenta : TipoVenta
  encargoId : Option String
deriving Repr, DecidableEq

/-- `EncargoEstado`: `'PENDIENTE' | 'ENTREGADO' | 'CANCELADO'`. -/
inductive EncargoEstado where
  | pendiente
  | entregado
  | cancelado
deriving Repr, DecidableEq

/-- Row of `encargo_items`: the order's price-locked line. -/
structure EncargoItemRow where
  productoId : String
  cantidad : ℚ
  precioEstimadoCents : ℤ
deriving Repr, DecidableEq

/-- Row of `encargo_abonos`: one immutable deposit. -/
structure AbonoRow where
  montoCents : ℤ
  medioPago : Option String
deriving Repr, DecidableEq

/-- A persisted advance order: the `encargos` header row with its owned
`encargo_items` and `encargo_abonos` child rows. -/
structure Encargo where
  id : String
  cliente : String
  totalEstimadoCents : ℤ
  estado : EncargoEstado
  ventaId : Option String
  items : List EncargoItemRow
  abonos : List AbonoRow
deriving Repr, DecidableEq

/-- The persistent state the settlement engine touches: the `productos`,
`ventas` (+children) and `encargos` (+children) tables, and the
`config.tasaCambio` row. -/
structure DB where
  productos : List Producto
  ventas : List Venta
  encargos : List Encargo
  configTasaCambio : Option ℚ
deriving Repr, DecidableEq

/-- `UPDATE productos SET stock_disponible = ? WHERE id = ?`. -/
def updateStock (productos : List Producto) (pid : String) (nuevo : ℚ) :
    List Producto :=
  productos.map (fun p => if p.id = pid then { p with stockDisponible := nuevo } else p)

/-- `SELECT ... FROM productos WHERE id = ?` (`fetchProductoById`), `none` when
the row is absent. -/
def findProducto (db : DB) (pid : String) : Option Producto :=
  db.productos.find? (fun p => p.id = pid)

/-- `producto.precioVenta ?? producto.precioUnitario` (JS `??` falls back only
on null/undefined, so a price of `0` is used, not skipped). -/
def resolverPrecio (p : Producto) : Option ℚ :=
  p.precioVenta.orElse (fun _ => p.precioUnitario)

/-- One entry of the `detalles` array built inside `crearVenta`: the fetched
product row (a snapshot taken before any write), the quantity, the cents
price snapshot and the line subtotal. -/
structure Detalle where
  producto : Producto
  cantidad : ℚ
  precioUnitarioCents : ℤ
  subtotalCents : ℤ
deriving Repr, DecidableEq

/-- The per-cart-line validation/pricing step of `crearVenta` (lines 334-358):
reject non-positive quantity, load the product (failing if absent), check
stock, resolve the price, and compute
`subtotal = Math.round(precioUnitarioCents * cantidad)`. -/
def construirDetalle (db : DB) (item : ItemInput) : Except SalesError Detalle :=
  if item.cantidad ≤ 0 then .error .invalidQuantity
  else
    match findProducto db item.productoId with
    | none => .error (.productNotFound item.productoId)
    | some producto =>
      if producto.stockDisponible < item.cantidad then
        .error (.insufficientStock producto.nombre)
      else
        match resolverPrecio producto with
        | none => .error (.missingPrice producto.nombre)
        | some precio =>
          let precioUnitarioCents := toCents precio
          .ok { producto := producto,
                cantidad := item.cantidad,
                precioUnitarioCents := precioUnitarioCents,
                subtotalCents := round ((precioUnitarioCents : ℚ) * item.cantidad) }

/-- The stock write-back loop of `crearVenta` (lines 377-384).  Each iteration
writes `producto.stockDisponible - cantidad` where `producto` is the row object
fetched for *that* line before any write — so when the same product appears in
several cart lines every write is computed from the pre-settlement stock and
the last write wins. -/
def aplicarDecrementos (productos : List Producto) (detalles : List Detalle) :
    List Producto :=
  detalles.foldl
    (fun ps d => updateStock ps d.producto.id (d.producto.stockDisponible - d.cantidad))
    productos

/-- Result of a settlement: the persisted sale and the change in cents
(the source returns `fromCents` of this value). -/
structure VentaResult where
  venta : Venta
  cambioCents : ℤ
deriving Repr, DecidableEq

/-- `SalesService.crearVenta` (lines 313-452), the core settlement algorithm,
in state-passing style.  `ventaId` stands for the generated `randomUUID()`.
All validations precede all writes, exactly as in the source; on error the
state is returned unchanged. -/
def crearVenta (db : DB) (ventaId : String) (items : List ItemInput)
    (pagos : List DetallePago) (usuarioId : String) (tasaCambioBase : ℚ)
    (tipoVenta : TipoVenta) (descuentoCents : Option ℚ)
    (encargoId : Option String) : DB × Except SalesError VentaResult :=
  match pagos.mapM (fun p => normalizarPago p tasaCambioBase) with
  | .error e => (db, .error e)
  | .ok pagosNormalizados =>
    match items.mapM (construirDetalle db) with
    | .error e => (db, .error e)
    | .ok detalles =>
      let totalVentaCents := (detalles.map (·.subtotalCents)).sum
      let descuentoInput := descuentoCents.getD 0
      if descuentoInput < 0 then (db, .error .invalidDiscount)
      else
        let descCents := min (round descuentoInput) totalVentaCents
        let totalNetoCents := totalVentaCents - descCents
        match pagosNormalizados.mapM (fun p => convertirPagoACents p tasaCambioBase) with
        | .error e => (db, .error e)
        | .ok convertidos =>
          let totalPagadoCents := convertidos.sum
          if totalPagadoCents < totalNetoCents then (db, .error .insufficientPayment)
          else
            let venta : Venta :=
              { id := ventaId,
                totalCents := totalNetoCents,
                descuentoCents := descCents,
                items := detalles.map (fun d =>
                  { productoId := d.producto.id,
                    cantidad := d.cantidad,
                    precioUnitarioCents := d.precioUnitarioCents,
                    subtotalCents := d.subtotalCents }),
                pagos := pagosNormalizados.map (fun p =>
                  { moneda := p.moneda,
                    cantidadCents := toCents p.cantidad,
                    tasa := p.tasa }),
                usuarioId := usuarioId,
                tipoVenta := tipoVenta,
                encargoId := encargoId }
            ({ db with
                 productos := aplicarDecrementos db.productos detalles,
                 ventas := db.ventas ++ [venta] },
             .ok { venta := venta, cambioCents := totalPagadoCents - totalNetoCents })

/-- `withTursoTransaction` from `src/infrastructure/database/turso.ts`: run the
handler on the current state; commit its state on success, roll back to the
initial state on error. -/
def withTursoTransaction (db : DB) (handler : DB → DB × Except SalesError α) :
    DB × Except SalesError α :=
  match handler db with
  | (db', .ok a) => (db', .ok a)
  | (_, .error e) => (db, .error e)

/-- `SalesService.procesarVenta` (lines 106-138): direct-sale entry point.
The `usuarioId?.trim()` guard, the empty-cart and empty-payments guards and the
exchange-rate read happen before the transaction opens.  The `tipoVenta`
validity check of the source is vacuous here because `TipoVenta` is typed.
`tasaCambioFallback` is the service's constructor-supplied fallback rate. -/
def procesarVenta (db : DB) (tasaCambioFallback : Option ℚ) (ventaId : String)
    (items : List ItemInput) (pagos : List DetallePago) (usuarioId : String)
    (descuentoCents : Option ℚ) (tipoVenta : TipoVenta)
    (encargoId : Option String) : DB × Except SalesError VentaResult :=
  if items.isEmpty then (db, .error .emptyItems)
  else if pagos.isEmpty then (db, .error .emptyPagos)
  else if (trimChars usuarioId).isEmpty then (db, .error .missingUser)
  else
    let tasaCambioBase := obtenerTasaCambio db.configTasaCambio tasaCambioFallback
    withTursoTransaction db (fun tx =>
      crearVenta tx ventaId items pagos usuarioId tasaCambioBase tipoVenta
        descuentoCents encargoId)

/-- `SELECT ... FROM ventas WHERE id = ?` (`fetchVentaById`), `none` if absent. -/
def findVenta (db : DB) (vid : String) : Option Venta :=
  db.ventas.find? (fun v => v.id = vid)

/-- `SELECT ... FROM encargos WHERE id = ?` (`fetchEncargoById`), `none` if absent. -/
def findEncargo (db : DB) (eid : String) : Option Encargo :=
  db.encargos.find? (fun e => e.id = eid)

/-- The stock-restore loop of `anularVenta` (lines 76-95).  The products are
fetched into a map keyed by id before the loop, and each iteration both writes
the new stock and updates the shared map object, so successive items of the
same product accumulate; this is equivalent to reading the current stock from
the store at each step, which is how we model it.  A missing product aborts
mid-loop (earlier writes are then discarded by the transaction rollback). -/
def incrementarStockItems (productos : List Producto) (items : List VentaItemRow) :
    List Producto × Option SalesError :=
  match items with
  | [] => (productos, none)
  | item :: rest =>
    match productos.find? (fun p => p.id = item.productoId) with
    | none => (productos, some (.productNotFound item.productoId))
    | some producto =>
      incrementarStockItems
        (updateStock productos producto.id (producto.stockDisponible + item.cantidad))
        rest

/-- `SalesService.anularVenta` (lines 71-104): void a settled sale — restore
stock for every line item, then `DELETE FROM ventas WHERE id = ?` (the child
`venta_items`/`venta_pagos` rows cascade with the header), inside one
transaction. -/
def anularVenta (db : DB) (id : String) : DB × Except SalesError Venta :=
  withTursoTransaction db (fun tx =>
    match findVenta tx id with
    | none => (tx, .error .saleNotFound)
    | some venta =>
      match incrementarStockItems tx.productos venta.items with
      | (ps, some e) => ({ tx with productos := ps }, .error e)
      | (ps, none) =>
        ({ tx with
             productos := ps,
             ventas := tx.ventas.filter (fun v => ¬ v.id = id) },
         .ok venta))

/-- The per-item pricing step of `crearEncargo` (lines 182-198): reject
non-positive quantity, load the product, resolve
`precioVenta ?? precioUnitario` (failing when neither is set), lock
`toCents` of it, and compute the estimated subtotal. -/
def construirDetalleEncargo (db : DB) (item : ItemInput) :
    Except SalesError (EncargoItemRow × ℤ) :=
  if item.cantidad ≤ 0 then .error .invalidQuantity
  else
    match findProducto db item.productoId with
    | none => .error (.productNotFound item.productoId)
    | some producto =>
      match resolverPrecio producto with
      | none => .error (.missingPrice producto.nombre)
      | some precioBase =>
        let precioEstimadoCents := toCents precioBase
        .ok ({ productoId := producto.id,
               cantidad := item.cantidad,
               precioEstimadoCents := precioEstimadoCents },
             round ((precioEstimadoCents : ℚ) * item.cantidad))

/-- `SalesService.crearEncargo` (lines 162-225): create an advance order with
price-locked items.  `encargoId` stands for the generated `ORD-` uuid and
`fechaEntregaValida` for the `Number.isNaN(new Date(fechaEntrega).getTime())`
parse check (date strings are not otherwise modelled; no claim involves the
stored date).  No stock is touched. -/
def crearEncargo (db : DB) (encargoId : String) (cliente : String)
    (fechaEntregaValida : Bool) (items : List ItemInput) :
    DB × Except SalesError Encargo :=
  if (trimChars cliente).isEmpty then (db, .error .invalidCustomer)
  else if items.isEmpty then (db, .error .emptyItems)
  else if ¬ fechaEntregaValida then (db, .error .invalidDeliveryDate)
  else
    withTursoTransaction db (fun tx =>
      match items.mapM (construirDetalleEncargo tx) with
      | .error e => (tx, .error e)
      | .ok detalles =>
        let totalEstimadoCents := (detalles.map (·.2)).sum
        let encargo : Encargo :=
          { id := encargoId,
            cliente := trimChars cliente,
            totalEstimadoCents := totalEstimadoCents,
            estado := .pendiente,
            ventaId := none,
            items := detalles.map (·.1),
            abonos := [] }
        ({ tx with encargos := tx.encargos ++ [encargo] }, .ok encargo))

/-- `UPDATE encargos SET ... WHERE id = ?` / insertion into an encargo's owned
child rows: rewrite the matching order row. -/
def updateEncargo (encargos : List Encargo) (eid : String) (f : Encargo → Encargo) :
    List Encargo :=
  encargos.map (fun e => if e.id = eid then f e else e)

/-- `SalesService.registrarAbono` (lines 227-257): record a deposit against a
pending order.  A non-positive amount is rejected before the transaction; the
deposit row is appended and the order re-fetched. -/
def registrarAbono (db : DB) (encargoId : String) (monto : ℚ)
    (medioPago : Option String) : DB × Except SalesError Encargo :=
  if monto ≤ 0 then (db, .error .invalidDepositAmount)
  else
    let montoCents := toCents monto
    withTursoTransaction db (fun tx =>
      match findEncargo tx encargoId with
      | none => (tx, .error .orderNotFound)
      | some encargo =>
        if encargo.estado ≠ .pendiente then (tx, .error .orderNotPending)
        else
          let tx' := { tx with
            encargos := updateEncargo tx.encargos encargoId (fun e =>
              { e with abonos := e.abonos ++ [{ montoCents := montoCents, medioPago := medioPago }] }) }
          match findEncargo tx' encargoId with
          | some e' => (tx', .ok e')
          | none => (tx', .error .orderNotFound))

/-- The per-deposit payment synthesis in `finalizarEncargo` (lines 287-290):
currency `NIO`, amount `fromCents(montoCents)`, no rate. -/
def pagoDeAbono (a : AbonoRow) : DetallePago :=
  { moneda := "NIO", cantidad := fromCents a.montoCents, tasa := none }

/-- The locked-item projection in `finalizarEncargo` (lines 278-281). -/
def itemDeEncargo (it : EncargoItemRow) : ItemInput :=
  { productoId := it.productoId, cantidad := it.cantidad }

/-- `SalesService.finalizarEncargo` (lines 259-311): settle a pending order.
Accumulated deposits become base-currency (`NIO`) payment lines via
`fromCents`, the extra payments supplied at finalization are appended, the
whole cart of *locked* quantities is settled through `crearVenta` (re-pricing
at current product prices), and the order is marked `ENTREGADO` and linked to
the produced sale — all in one transaction. -/
def finalizarEncargo (db : DB) (tasaCambioFallback : Option ℚ) (ventaId : String)
    (encargoId : String) (pagosFinales : List DetallePago) (usuarioId : String)
    (descuentoCents : Option ℚ) :
    DB × Except SalesError (VentaResult × Encargo) :=
  if (trimChars usuarioId).isEmpty then (db, .error .missingUser)
  else
    let tasaCambioBase := obtenerTasaCambio db.configTasaCambio tasaCambioFallback
    withTursoTransaction db (fun tx =>
      match findEncargo tx encargoId with
      | none => (tx, .error .orderNotFound)
      | some encargo =>
        if encargo.estado ≠ .pendiente then (tx, .error .orderNotPending)
        else
          let items := encargo.items.map itemDeEncargo
          if items.isEmpty then (tx, .error .orderEmpty)
          else
            let pagosPorAbonos := encargo.abonos.map pagoDeAbono
            let pagosCombinados := pagosPorAbonos ++ pagosFinales
            if pagosCombinados.isEmpty then (tx, .error .emptyPagos)
            else
              match crearVenta tx ventaId items pagosCombinados usuarioId
                      tasaCambioBase .encargo descuentoCents (some encargoId) with
              | (txe, .error e) => (txe, .error e)
              | (tx', .ok res) =>
                let tx'' := { tx' with
                  encargos := updateEncargo tx'.encargos encargoId (fun e =>
                    { e with estado := .entregado, ventaId := some ventaId }) }
                match findEncargo tx'' encargoId with
                | some e' => (tx'', .ok (res, e'))
                | none => (tx'', .error .orderNotFound))

/-- Modelled from the spec: the repository declares the `CANCELADO` order state
(`EncargoEstado` in `encargo.entity.ts` and the `CHECK` constraint on
`encargos.estado`) but ships no cancellation method in `SalesService`; this
definition follows spec §4.6 "Cancel": only legal while `PENDIENTE` (failing
`OrderNotPending` otherwise, `OrderNotFound` when absent), marks the order
`CANCELADO`, and touches nothing else — no stock, no payments, no deposit
refunds. -/
def cancelarEncargo (db : DB) (encargoId : String) : DB × Except SalesError Encargo :=
  withTursoTransaction db (fun tx =>
    match findEncargo tx encargoId with
    | none => (tx, .error .orderNotFound)
    | some encargo =>
      if encargo.estado ≠ .pendiente then (tx, .error .orderNotPending)
      else
        let tx' := { tx with
          encargos := updateEncargo tx.encargos encargoId (fun e =>
            { e with estado := .cancelado }) }
        match findEncargo tx' encargoId with
        | some e' => (tx', .ok e')
        | none => (tx', .error .orderNotFound))

/-- `InventoryService.actualizarProducto` (product update, inventory service):
merges the supplied fields over the current row and writes the `productos`
row — the only table it touches.  Used here to model "a product's price
changes" for the order-frame claim; only the price fields are merged since the
claims never update stock this way. -/
def actualizarProducto (db : DB) (pid : String) (precioUnitario precioVenta : Option ℚ) :
    DB × Except SalesError Producto :=
  match findProducto db pid with
  | none => (db, .error (.productNotFound pid))
  | some current =>
    let updated := { current with
      precioUnitario := precioUnitario.orElse (fun _ => current.precioUnitario),
      precioVenta := precioVenta.orElse (fun _ => current.precioVenta) }
    ({ db with
         productos := db.productos.map (fun p => if p.id = pid then updated else p) },
     .ok updated)

/-! ## Concrete test fixtures (inputs for witnesses and counterexamples) -/

/-- A product "Pan" with 5 units in stock and sale price 1 (= 100 cents). -/
def prodPan : Producto :=
  { id := "p1", nombre := "Pan", stockDisponible := 5,
    precioUnitario := none, precioVenta := some 1 }

/-- An empty store. -/
def db0 : DB := { productos := [], ventas := [], encargos := [], configTasaCambio := none }

/-- A store holding only `prodPan`. -/
def dbPan : DB :=
  { productos := [prodPan], ventas := [], encargos := [], configTasaCambio := none }

/-- A pending order for 2 units of `prodPan` locked at 100 cents each, with one
deposit of 100 cents. -/
def encPan : Encargo :=
  { id := "o1", cliente := "Ana", totalEstimadoCents := 200, estado := .pendiente,
    ventaId := none,
    items := [{ productoId := "p1", cantidad := 2, precioEstimadoCents := 100 }],
    abonos := [{ montoCents := 100, medioPago := none }] }

/-- A store holding `prodPan` and the pending order `encPan`. -/
def dbEnc : DB :=
  { productos := [prodPan], ventas := [], encargos := [encPan], configTasaCambio := none }

/-- The sale produced by settling 2 units of `prodPan` with a 200-cent NIO
payment and a 50-cent discount. -/
def ventaC2 : Venta :=
  { id := "v1", totalCents := 150, descuentoCents := 50,
    items := [{ productoId := "p1", cantidad := 2,
                precioUnitarioCents := 100, subtotalCents := 200 }],
    pagos := [{ moneda := "NIO", cantidadCents := 200, tasa := none }],
    usuarioId := "u", tipoVenta := .directa, encargoId := none }

/-- `dbPan` after that settlement: stock decremented to 3, sale persisted. -/
def dbC2 : DB :=
  { productos := [{ id := "p1", nombre := "Pan", stockDisponible := 3,
                    precioUnitario := none, precioVenta := some 1 }],
    ventas := [ventaC2], encargos := [], configTasaCambio := none }

/-- Cart line: 2 units of `prodPan`. -/
def itemPan2 : ItemInput := { productoId := "p1", cantidad := 2 }

/-- Payment line: 2 NIO (= 200 cents), no explicit rate. -/
def pagoNIO2 : DetallePago := { moneda := "NIO", cantidad := 2, tasa := none }

/-- The priced cart line `crearVenta` derives for `itemPan2` against `dbPan`. -/
def detPan2 : Detalle :=
  { producto := prodPan, cantidad := 2, precioUnitarioCents := 100, subtotalCents := 200 }

/-- The sale produced by settling the duplicate cart `[(p1,3),(p1,4)]` of
`prodPan` against a 700-cent NIO payment. -/
def ventaC4 : Venta :=
  { id := "v4", totalCents := 700, descuentoCents := 0,
    items := [{ productoId := "p1", cantidad := 3, precioUnitarioCents := 100, subtotalCents := 300 },
              { productoId := "p1", cantidad := 4, precioUnitarioCents := 100, subtotalCents := 400 }],
    pagos := [{ moneda := "NIO", cantidadCents := 700, tasa := none }],
    usuarioId := "u", tipoVenta := .directa, encargoId := none }

/-- The sale produced by settling the duplicate cart `[(p1,2),(p1,2)]` of
`prodPan` against a 400-cent NIO payment. -/
def ventaC5 : Venta :=
  { id := "v5", totalCents := 400, descuentoCents := 0,
    items := [{ productoId := "p1", cantidad := 2, precioUnitarioCents := 100, subtotalCents := 200 },
              { productoId := "p1", cantidad := 2, precioUnitarioCents := 100, subtotalCents := 200 }],
    pagos := [{ moneda := "NIO", cantidadCents := 400, tasa := none }],
    usuarioId := "u", tipoVenta := .directa, encargoId := none }

/-- Payment line: 1 NIO (= 100 cents). -/
def pagoNIO1 : DetallePago := { moneda := "NIO", cantidad := 1, tasa := none }

/-- The sale produced by finalizing `encPan` (2 × `prodPan`, one 100-cent
deposit) with one extra 100-cent NIO payment. -/
def ventaC7 : Venta :=
  { id := "v7", totalCents := 200, descuentoCents := 0,
    items := [{ productoId := "p1", cantidad := 2, precioUnitarioCents := 100, subtotalCents := 200 }],
    pagos := [{ moneda := "NIO", cantidadCents := 100, tasa := none },
              { moneda := "NIO", cantidadCents := 100, tasa := none }],
    usuarioId := "u", tipoVenta := .encargo, encargoId := some "o1" }

/-- `encPan` after finalization: delivered and linked to sale `v7`. -/
def encPanFin : Encargo := { encPan with estado := .entregado, ventaId := some "v7" }

/-- `dbEnc` after finalizing `encPan`: stock decremented, sale persisted,
order delivered. -/
def dbEncFin : DB :=
  { productos := [{ prodPan with stockDisponible := 3 }],
    ventas := [ventaC7], encargos := [encPanFin], configTasaCambio := none }

/-- `encPan` with one more 100-cent deposit appended. -/
def encPanAb : Encargo :=
  { encPan with abonos := encPan.abonos ++ [{ montoCents := 100, medioPago := none }] }

/-- `dbEnc` after registering that deposit. -/
def dbEncAb : DB := { dbEnc with encargos := [encPanAb] }

/-! ## Infrastructure lemmas -/

theorem toCents_fromCents (m : ℤ) : toCents (fromCents m) = m := by
  unfold toCents fromCents
  rw [div_mul_cancel₀ _ (by norm_num : (100:ℚ) ≠ 0)]
  exact round_intCast m

theorem fromCents_pos_iff (m : ℤ) : 0 < fromCents m ↔ 0 < m := by
  unfold fromCents
  rw [lt_div_iff₀ (by norm_num : (0:ℚ) < 100)]
  simp

/-- `mapM` over `Except` succeeds exactly on pointwise successes, in order. -/
theorem mapM_ok_iff_forall₂ {α β : Type} (f : α → Except SalesError β)
    (l : List α) (ys : List β) :
    l.mapM f = .ok ys ↔ List.Forall₂ (fun x y => f x = .ok y) l ys := by
  induction l generalizing ys with
  | nil =>
    simp only [List.mapM_nil]
    constructor
    · intro h
      cases ys with
      | nil => exact List.Forall₂.nil
      | cons b bs => simp [pure, Except.pure] at h
    · intro h
      cases h
      rfl
  | cons a l ih =>
    rw [List.mapM_cons]
    constructor
    · intro h
      cases hfa : f a with
      | error e => rw [hfa] at h; simp [Bind.bind, Except.bind] at h
      | ok b =>
        rw [hfa] at h
        simp only [Bind.bind, Except.bind] at h
        cases hl : l.mapM f with
        | error e => rw [hl] at h; simp at h
        | ok bs =>
          rw [hl] at h
          simp only [pure, Except.pure, Except.ok.injEq] at h
          subst h
          exact List.Forall₂.cons hfa (ih bs |>.mp hl)
    · intro h
      cases h with
      | cons hab htail =>
        rename_i b bs
        rw [hab, (ih bs).mpr htail]
        rfl

/-- On the error branch the transaction wrapper rolls back to the initial state. -/
theorem withTursoTransaction_error {α : Type} (db : DB)
    (handler : DB → DB × Except SalesError α) (e : SalesError)
    (h : (withTursoTransaction db handler).2 = .error e) :
    (withTursoTransaction db handler).1 = db := by
  unfold withTursoTransaction at h ⊢
  rcases hh : handler db with ⟨db', r⟩
  rw [hh] at h
  cases r with
  | ok a => exact absurd h (fun hc => Except.noConfusion hc)
  | error e' => rfl

/-- Updating one product's stock commutes with point lookup. -/
theorem find?_updateStock (l : List Producto) (pid qid : String) (v : ℚ) :
    (updateStock l pid v).find? (fun p => p.id = qid) =
      (l.find? (fun p => p.id = qid)).map
        (fun p => if p.id = pid then { p with stockDisponible := v } else p) := by
  unfold updateStock
  rw [List.find?_map]
  have hpred :
      ((fun p => decide (p.id = qid)) ∘
        fun p => if p.id = pid then { p with stockDisponible := v } else p) =
      (fun p : Producto => decide (p.id = qid)) := by
    funext p
    by_cases h : p.id = pid <;> simp [h]
  rw [hpred]

/-- Stock of product `pid` after the settlement write-back loop, starting from
`init`: each matching line overwrites with its own stale
`d.producto.stockDisponible - d.cantidad`, so the last matching line wins. -/
def stockTrasDecrementos (pid : String) (init : ℚ) (detalles : List Detalle) : ℚ :=
  detalles.foldl
    (fun s d => if d.producto.id = pid then d.producto.stockDisponible - d.cantidad else s)
    init

theorem find?_aplicarDecrementos (ps : List Producto) (ds : List Detalle) (qid : String) :
    (aplicarDecrementos ps ds).find? (fun p => p.id = qid) =
      (ps.find? (fun p => p.id = qid)).map
        (fun p => { p with stockDisponible := stockTrasDecrementos p.id p.stockDisponible ds }) := by
  induction ds generalizing ps with
  | nil => simp [aplicarDecrementos, stockTrasDecrementos]
  | cons d ds ih =>
    rw [show aplicarDecrementos ps (d :: ds) =
          aplicarDecrementos
            (updateStock ps d.producto.id (d.producto.stockDisponible - d.cantidad)) ds from rfl]
    rw [ih, find?_updateStock, Option.map_map]
    congr 1
    funext p
    by_cases h : p.id = d.producto.id <;>
      simp [stockTrasDecrementos, h, Function.comp, eq_comm (a := d.producto.id)]

theorem stockTrasDecrementos_no_match (pid : String) (init : ℚ) (ds : List Detalle)
    (h : ∀ d ∈ ds, d.producto.id ≠ pid) : stockTrasDecrementos pid init ds = init := by
  induction ds generalizing init with
  | nil => rfl
  | cons d ds ih =>
    rw [stockTrasDecrementos, List.foldl_cons, if_neg (h d (by simp))]
    exact ih init (fun d' hd' => h d' (by simp [hd']))

theorem stockTrasDecrementos_nonneg (pid : String) (init : ℚ) (ds : List Detalle)
    (hds : ∀ d ∈ ds, 0 ≤ d.producto.stockDisponible - d.cantidad) (h0 : 0 ≤ init) :
    0 ≤ stockTrasDecrementos pid init ds := by
  induction ds generalizing init with
  | nil => exact h0
  | cons d ds ih =>
    rw [stockTrasDecrementos, List.foldl_cons]
    refine ih _ (fun d' hd' => hds d' (by simp [hd'])) ?_
    by_cases h : d.producto.id = pid
    · rw [if_pos h]; exact hds d (by simp)
    · rw [if_neg h]; exact h0

theorem stockTrasDecrementos_unique (pid : String) (init : ℚ)
    (ds₁ : List Detalle) (d : Detalle) (ds₂ : List Detalle)
    (hd : d.producto.id = pid) (h₂ : ∀ d' ∈ ds₂, d'.producto.id ≠ pid) :
    stockTrasDecrementos pid init (ds₁ ++ d :: ds₂) =
      d.producto.stockDisponible - d.cantidad := by
  unfold stockTrasDecrementos
  rw [List.foldl_append, List.foldl_cons, if_pos hd]
  exact stockTrasDecrementos_no_match pid _ ds₂ h₂

/-- The sale record `crearVenta` builds and persists from its intermediate
values (same expressions as in the definition; stated once for reuse). -/
def ventaDe (vid : String) (detalles : List Detalle) (pn : List DetallePago)
    (u : String) (tv : TipoVenta) (dc : Option ℚ) (eid : Option String) : Venta :=
  { id := vid,
    totalCents := (detalles.map (·.subtotalCents)).sum
        - min (round (dc.getD 0)) (detalles.map (·.subtotalCents)).sum,
    descuentoCents := min (round (dc.getD 0)) (detalles.map (·.subtotalCents)).sum,
    items := detalles.map (fun d =>
      { productoId := d.producto.id,
        cantidad := d.cantidad,
        precioUnitarioCents := d.precioUnitarioCents,
        subtotalCents := d.subtotalCents }),
    pagos := pn.map (fun p =>
      { moneda := p.moneda, cantidadCents := toCents p.cantidad, tasa := p.tasa }),
    usuarioId := u,
    tipoVenta := tv,
    encargoId := eid }

/-- Forward evaluation of `crearVenta` on the success path. -/
theorem crearVenta_eq_ok (vid : String) (u : String) (tv : TipoVenta)
    (eid : Option String) {db : DB} {items : List ItemInput}
    {pagos pn : List DetallePago} {t : ℚ}
    {dc : Option ℚ} {detalles : List Detalle} {conv : List ℤ}
    (hpn : pagos.mapM (fun p => normalizarPago p t) = .ok pn)
    (hdet : items.mapM (construirDetalle db) = .ok detalles)
    (hd : ¬ dc.getD 0 < 0)
    (hconv : pn.mapM (fun p => convertirPagoACents p t) = .ok conv)
    (hpay : ¬ conv.sum < (detalles.map (·.subtotalCents)).sum
        - min (round (dc.getD 0)) (detalles.map (·.subtotalCents)).sum) :
    crearVenta db vid items pagos u t tv dc eid =
      ({ db with productos := aplicarDecrementos db.productos detalles,
                 ventas := db.ventas ++ [ventaDe vid detalles pn u tv dc eid] },
       .ok { venta := ventaDe vid detalles pn u tv dc eid,
             cambioCents := conv.sum - ((detalles.map (·.subtotalCents)).sum
               - min (round (dc.getD 0)) (detalles.map (·.subtotalCents)).sum) }) := by
  unfold crearVenta
  rw [hpn, hdet]
  dsimp only
  rw [if_neg hd, hconv]
  dsimp only
  rw [if_neg hpay]
  rfl

/-- Forward evaluation of `crearVenta` when payments fall short of the net
total: it fails with `insufficientPayment` and leaves the state unchanged. -/
theorem crearVenta_eq_insufficient (vid : String) (u : String) (tv : TipoVenta)
    (eid : Option String) {db : DB} {items : List ItemInput}
    {pagos pn : List DetallePago} {t : ℚ}
    {dc : Option ℚ} {detalles : List Detalle} {conv : List ℤ}
    (hpn : pagos.mapM (fun p => normalizarPago p t) = .ok pn)
    (hdet : items.mapM (construirDetalle db) = .ok detalles)
    (hd : ¬ dc.getD 0 < 0)
    (hconv : pn.mapM (fun p => convertirPagoACents p t) = .ok conv)
    (hpay : conv.sum < (detalles.map (·.subtotalCents)).sum
        - min (round (dc.getD 0)) (detalles.map (·.subtotalCents)).sum) :
    crearVenta db vid items pagos u t tv dc eid = (db, .error .insufficientPayment) := by
  unfold crearVenta
  rw [hpn, hdet]
  dsimp only
  rw [if_neg hd, hconv]
  dsimp only
  rw [if_pos hpay]

/-- Inversion for `crearVenta`: a successful settlement determines every
intermediate value and the final state. -/
theorem crearVenta_ok_elim {db db' : DB} {vid : String} {items : List ItemInput}
    {pagos : List DetallePago} {u : String} {t : ℚ} {tv : TipoVenta}
    {dc : Option ℚ} {eid : Option String} {res : VentaResult}
    (h : crearVenta db vid items pagos u t tv dc eid = (db', .ok res)) :
    ∃ pn detalles conv,
      pagos.mapM (fun p => normalizarPago p t) = .ok pn ∧
      items.mapM (construirDetalle db) = .ok detalles ∧
      ¬ dc.getD 0 < 0 ∧
      pn.mapM (fun p => convertirPagoACents p t) = .ok conv ∧
      ¬ conv.sum < (detalles.map (·.subtotalCents)).sum
          - min (round (dc.getD 0)) (detalles.map (·.subtotalCents)).sum ∧
      db' = { db with productos := aplicarDecrementos db.productos detalles,
                      ventas := db.ventas ++ [ventaDe vid detalles pn u tv dc eid] } ∧
      res = { venta := ventaDe vid detalles pn u tv dc eid,
              cambioCents := conv.sum - ((detalles.map (·.subtotalCents)).sum
                - min (round (dc.getD 0)) (detalles.map (·.subtotalCents)).sum) } := by
  unfold crearVenta at h
  cases hpn : pagos.mapM (fun p => normalizarPago p t) with
  | error e => rw [hpn] at h; exact absurd h (by intro hc; cases hc)
  | ok pn =>
  rw [hpn] at h
  cases hdet : items.mapM (construirDetalle db) with
  | error e => rw [hdet] at h; exact absurd h (by intro hc; cases hc)
  | ok detalles =>
  rw [hdet] at h
  dsimp only at h
  by_cases hd : dc.getD 0 < 0
  · rw [if_pos hd] at h; exact absurd h (by intro hc; cases hc)
  · rw [if_neg hd] at h
    cases hconv : pn.mapM (fun p => convertirPagoACents p t) with
    | error e => rw [hconv] at h; exact absurd h (by intro hc; cases hc)
    | ok conv =>
    rw [hconv] at h
    dsimp only at h
    by_cases hpay : conv.sum < (detalles.map (·.subtotalCents)).sum
        - min (round (dc.getD 0)) (detalles.map (·.subtotalCents)).sum
    · rw [if_pos hpay] at h; exact absurd h (by intro hc; cases hc)
    · rw [if_neg hpay] at h
      refine ⟨pn, detalles, conv, rfl, rfl, hd, hconv, hpay, ?_, ?_⟩
      · exact congrArg Prod.fst h.symm
      · have := congrArg Prod.snd h
        simp only at this
        cases this
        rfl

theorem withTursoTransaction_ok_elim {α : Type} {db db' : DB}
    {handler : DB → DB × Except SalesError α} {a : α}
    (h : withTursoTransaction db handler = (db', .ok a)) :
    handler db = (db', .ok a) := by
  unfold withTursoTransaction at h
  rcases hh : handler db with ⟨dbx, r⟩
  rw [hh] at h
  cases r with
  | ok b => exact h ▸ rfl
  | error e => exact absurd h (by intro hc; cases hc)

theorem withTursoTransaction_of_ok {α : Type} {db db' : DB}
    {handler : DB → DB × Except SalesError α} {a : α}
    (h : handler db = (db', .ok a)) :
    withTursoTransaction db handler = (db', .ok a) := by
  unfold withTursoTransaction
  rw [h]

theorem withTursoTransaction_of_error {α : Type} {db dbx : DB}
    {handler : DB → DB × Except SalesError α} {e : SalesError}
    (h : handler db = (dbx, .error e)) :
    withTursoTransaction db handler = (db, .error e) := by
  unfold withTursoTransaction
  rw [h]

/-- A successful `procesarVenta` is exactly a successful `crearVenta` under the
exchange rate read before the transaction. -/
theorem procesarVenta_ok_elim {db db' : DB} {fb : Option ℚ} {vid : String}
    {items : List ItemInput} {pagos : List DetallePago} {u : String}
    {dc : Option ℚ} {tv : TipoVenta} {eid : Option String} {res : VentaResult}
    (h : procesarVenta db fb vid items pagos u dc tv eid = (db', .ok res)) :
    crearVenta db vid items pagos u (obtenerTasaCambio db.configTasaCambio fb)
      tv dc eid = (db', .ok res) := by
  unfold procesarVenta at h
  by_cases h1 : items.isEmpty
  · rw [if_pos h1] at h; exact absurd h (by intro hc; cases hc)
  · rw [if_neg h1] at h
    by_cases h2 : pagos.isEmpty
    · rw [if_pos h2] at h; exact absurd h (by intro hc; cases hc)
    · rw [if_neg h2] at h
      by_cases h3 : (trimChars u).isEmpty
      · rw [if_pos h3] at h; exact absurd h (by intro hc; cases hc)
      · rw [if_neg h3] at h
        exact withTursoTransaction_ok_elim h

/-! ## Claims -/

/-- C1: every settlement (`procesarVenta`), void (`anularVenta`),
deposit-registration (`registrarAbono`) and finalization (`finalizarEncargo`)
call that fails with any error leaves the persistent state exactly as it was:
no stock change, no sale/line-item/payment/deposit row, no order-status
change. -/
theorem C1_failed_call_leaves_state_unchanged
    (db : DB) (fb : Option ℚ) (vid : String) (items : List ItemInput)
    (pagos pagosFinales : List DetallePago) (u : String) (dc : Option ℚ)
    (tv : TipoVenta) (eid : Option String) (saleId orderId : String)
    (monto : ℚ) (medio : Option String) :
    (∀ e, (procesarVenta db fb vid items pagos u dc tv eid).2 = .error e →
      (procesarVenta db fb vid items pagos u dc tv eid).1 = db) ∧
    (∀ e, (anularVenta db saleId).2 = .error e →
      (anularVenta db saleId).1 = db) ∧
    (∀ e, (registrarAbono db orderId monto medio).2 = .error e →
      (registrarAbono db orderId monto medio).1 = db) ∧
    (∀ e, (finalizarEncargo db fb vid orderId pagosFinales u dc).2 = .error e →
      (finalizarEncargo db fb vid orderId pagosFinales u dc).1 = db) := by
  refine ⟨?_, ?_, ?_, ?_⟩
  · intro e he
    unfold procesarVenta at he ⊢
    by_cases h1 : items.isEmpty
    · rw [if_pos h1]
    · rw [if_neg h1] at he ⊢
      by_cases h2 : pagos.isEmpty
      · rw [if_pos h2]
      · rw [if_neg h2] at he ⊢
        by_cases h3 : (trimChars u).isEmpty
        · rw [if_pos h3]
        · rw [if_neg h3] at he ⊢
          exact withTursoTransaction_error _ _ e he
  · intro e he
    exact withTursoTransaction_error _ _ e he
  · intro e he
    unfold registrarAbono at he ⊢
    by_cases h1 : monto ≤ 0
    · rw [if_pos h1]
    · rw [if_neg h1] at he ⊢
      exact withTursoTransaction_error _ _ e he
  · intro e he
    unfold finalizarEncargo at he ⊢
    by_cases h1 : (trimChars u).isEmpty
    · rw [if_pos h1]
    · rw [if_neg h1] at he ⊢
      exact withTursoTransaction_error _ _ e he

/-- Witness for C1 at concrete failing inputs: an empty cart, a void of a
missing sale, a deposit on a missing order, and a finalization of a missing
order all error and leave the (empty) store untouched. -/
theorem C1_witness :
    (procesarVenta db0 none "v" [] [] "u" none .directa none).1 = db0 ∧
    (anularVenta db0 "s").1 = db0 ∧
    (registrarAbono db0 "o" 1 none).1 = db0 ∧
    (finalizarEncargo db0 none "v" "o" [] "u" none).1 = db0 := by
  obtain ⟨h1, h2, h3, h4⟩ :=
    C1_failed_call_leaves_state_unchanged db0 none "v" [] [] [] "u" none
      .directa none "s" "o" 1 none
  exact ⟨h1 .emptyItems rfl, h2 .saleNotFound rfl, h3 .orderNotFound rfl,
    h4 .orderNotFound rfl⟩

/-- C2: a settlement with an integral requested discount `d` (minor units)
only succeeds when `d ≥ 0`; the applied discount is `min d grossTotal` where
`grossTotal` is the sum of the persisted line subtotals, the persisted sale
total is `grossTotal` minus the applied discount, the discount never exceeds
the pre-discount subtotal, and the net total is never negative.  The sale with
these values is exactly the one appended to the store. -/
theorem C2_discount_clamp_and_net_total
    (db : DB) (fb : Option ℚ) (vid : String) (items : List ItemInput)
    (pagos : List DetallePago) (u : String) (d : ℤ) (tv : TipoVenta)
    (eid : Option String) (db' : DB) (res : VentaResult)
    (h : procesarVenta db fb vid items pagos u (some (d : ℚ)) tv eid = (db', .ok res)) :
    0 ≤ d ∧
    res.venta.descuentoCents = min d (res.venta.items.map (·.subtotalCents)).sum ∧
    res.venta.totalCents =
      (res.venta.items.map (·.subtotalCents)).sum - res.venta.descuentoCents ∧
    res.venta.descuentoCents ≤ (res.venta.items.map (·.subtotalCents)).sum ∧
    0 ≤ res.venta.totalCents ∧
    db'.ventas = db.ventas ++ [res.venta] := by
  have hc := procesarVenta_ok_elim h
  obtain ⟨pn, detalles, conv, hpn, hdet, hd, hconv, hpay, hdb, hres⟩ :=
    crearVenta_ok_elim hc
  have hd' : 0 ≤ d := by
    simp only [Option.getD_some, not_lt] at hd
    exact_mod_cast hd
  subst hres
  subst hdb
  refine ⟨hd', ?_, ?_, ?_, ?_, rfl⟩
  · simp [ventaDe, List.map_map, Function.comp_def, Option.getD_some, round_intCast]
  · simp [ventaDe, List.map_map, Function.comp_def, Option.getD_some, round_intCast]
  · simp only [ventaDe, List.map_map, Function.comp_def, Option.getD_some, round_intCast]
    exact min_le_right _ _
  · simp only [ventaDe, Option.getD_some, round_intCast]
    exact sub_nonneg.mpr (min_le_right _ _)

/-- Witness for C2: the concrete settlement of 2 units of `prodPan` (gross 200
cents) with a 50-cent discount and a 200-cent payment satisfies every clause. -/
theorem C2_witness :
    0 ≤ (50 : ℤ) ∧
    ventaC2.descuentoCents = min 50 (ventaC2.items.map (·.subtotalCents)).sum ∧
    ventaC2.totalCents =
      (ventaC2.items.map (·.subtotalCents)).sum - ventaC2.descuentoCents ∧
    ventaC2.descuentoCents ≤ (ventaC2.items.map (·.subtotalCents)).sum ∧
    0 ≤ ventaC2.totalCents ∧
    dbC2.ventas = dbPan.ventas ++ [ventaC2] :=
  C2_discount_clamp_and_net_total dbPan none "v1"
    [{ productoId := "p1", cantidad := 2 }]
    [{ moneda := "NIO", cantidad := 2, tasa := none }] "u" 50 .directa none
    dbC2 { venta := ventaC2, cambioCents := 50 }
    (by norm_num +decide [procesarVenta, crearVenta, withTursoTransaction,
      obtenerTasaCambio, resolverPrecio, Option.orElse, Option.getD, round_eq,
      List.mapM, List.mapM.loop, Bind.bind, Except.bind, pure, Except.pure,
      normalizarPago, construirDetalle, findProducto, dbPan, prodPan,
      normalizeMoneda, trimChars, toUpperChars, toCents, convertirPagoACents,
      aplicarDecrementos, updateStock, ventaDe, dbC2, ventaC2])

/-- C3: with every pre-payment stage succeeding (normalization `pn`, cart
pricing `detalles`, non-negative discount, conversions `conv`), a settlement
fails with `insufficientPayment` exactly when the converted-payment sum is
strictly below the net total; otherwise it succeeds with change equal to the
converted sum minus the persisted net total, which is never negative
(overpayment allowed). -/
theorem C3_insufficient_payment_iff_and_change
    (db : DB) (fb : Option ℚ) (vid : String) (items : List ItemInput)
    (pagos pn : List DetallePago) (u : String) (dc : Option ℚ)
    (tv : TipoVenta) (eid : Option String)
    (detalles : List Detalle) (conv : List ℤ)
    (hne : items ≠ []) (hpne : pagos ≠ []) (hu : (trimChars u).isEmpty = false)
    (hpn : pagos.mapM
      (fun p => normalizarPago p (obtenerTasaCambio db.configTasaCambio fb)) = .ok pn)
    (hdet : items.mapM (construirDetalle db) = .ok detalles)
    (hd : ¬ dc.getD 0 < 0)
    (hconv : pn.mapM
      (fun p => convertirPagoACents p (obtenerTasaCambio db.configTasaCambio fb)) = .ok conv) :
    ((procesarVenta db fb vid items pagos u dc tv eid).2 = .error .insufficientPayment
      ↔ conv.sum < (detalles.map (·.subtotalCents)).sum
          - min (round (dc.getD 0)) (detalles.map (·.subtotalCents)).sum) ∧
    (¬ conv.sum < (detalles.map (·.subtotalCents)).sum
          - min (round (dc.getD 0)) (detalles.map (·.subtotalCents)).sum →
      (procesarVenta db fb vid items pagos u dc tv eid).2 =
        .ok { venta := ventaDe vid detalles pn u tv dc eid,
              cambioCents := conv.sum - ((detalles.map (·.subtotalCents)).sum
                - min (round (dc.getD 0)) (detalles.map (·.subtotalCents)).sum) } ∧
      (ventaDe vid detalles pn u tv dc eid).totalCents =
        (detalles.map (·.subtotalCents)).sum
          - min (round (dc.getD 0)) (detalles.map (·.subtotalCents)).sum ∧
      0 ≤ conv.sum - ((detalles.map (·.subtotalCents)).sum
          - min (round (dc.getD 0)) (detalles.map (·.subtotalCents)).sum)) := by
  have h1 : items.isEmpty = false := by
    cases items with
    | nil => exact absurd rfl hne
    | cons a l => rfl
  have h2 : pagos.isEmpty = false := by
    cases pagos with
    | nil => exact absurd rfl hpne
    | cons a l => rfl
  have hproc : procesarVenta db fb vid items pagos u dc tv eid =
      withTursoTransaction db (fun tx =>
        crearVenta tx vid items pagos u (obtenerTasaCambio db.configTasaCambio fb)
          tv dc eid) := by
    unfold procesarVenta
    rw [h1, h2, hu]
    simp only [Bool.false_eq_true, if_false]
  by_cases hpay : conv.sum < (detalles.map (·.subtotalCents)).sum
      - min (round (dc.getD 0)) (detalles.map (·.subtotalCents)).sum
  · have hfail := crearVenta_eq_insufficient vid u tv eid hpn hdet hd hconv hpay
    rw [hproc, withTursoTransaction_of_error hfail]
    exact ⟨by simp [hpay], fun hc => absurd hpay hc⟩
  · have hok := crearVenta_eq_ok vid u tv eid hpn hdet hd hconv hpay
    rw [hproc, withTursoTransaction_of_ok hok]
    refine ⟨by simp [hpay], fun _ => ⟨rfl, rfl, ?_⟩⟩
    exact sub_nonneg.mpr (not_lt.mp hpay)

/-- Witness for C3 at the concrete settlement of 2 units of `prodPan` against
a single 200-cent NIO payment (no discount): payments exactly cover the total,
so the call does not fail and the change is 0. -/
theorem C3_witness :
    (((procesarVenta dbPan none "v1" [itemPan2] [pagoNIO2] "u" none .directa none).2 =
        .error .insufficientPayment
      ↔ [(200:ℤ)].sum < (([detPan2]).map (·.subtotalCents)).sum
          - min (round ((none : Option ℚ).getD 0))
              (([detPan2]).map (·.subtotalCents)).sum) ∧
    (¬ [(200:ℤ)].sum < (([detPan2]).map (·.subtotalCents)).sum
          - min (round ((none : Option ℚ).getD 0))
              (([detPan2]).map (·.subtotalCents)).sum →
      (procesarVenta dbPan none "v1" [itemPan2] [pagoNIO2] "u" none .directa none).2 =
        .ok { venta := ventaDe "v1" [detPan2] [pagoNIO2] "u" .directa none none,
              cambioCents := [(200:ℤ)].sum - ((([detPan2]).map (·.subtotalCents)).sum
                - min (round ((none : Option ℚ).getD 0))
                    (([detPan2]).map (·.subtotalCents)).sum) } ∧
      (ventaDe "v1" [detPan2] [pagoNIO2] "u" .directa none none).totalCents =
        (([detPan2]).map (·.subtotalCents)).sum
          - min (round ((none : Option ℚ).getD 0))
              (([detPan2]).map (·.subtotalCents)).sum ∧
      0 ≤ [(200:ℤ)].sum - ((([detPan2]).map (·.subtotalCents)).sum
          - min (round ((none : Option ℚ).getD 0))
              (([detPan2]).map (·.subtotalCents)).sum))) :=
  C3_insufficient_payment_iff_and_change dbPan none "v1" [itemPan2] [pagoNIO2]
    [pagoNIO2] "u" none .directa none [detPan2] [(200:ℤ)]
    (by simp) (by simp) (by decide)
    (by norm_num +decide [List.mapM, List.mapM.loop, Bind.bind, Except.bind,
      pure, Except.pure, normalizarPago, obtenerTasaCambio, normalizeMoneda,
      trimChars, toUpperChars, pagoNIO2, dbPan])
    (by norm_num +decide [List.mapM, List.mapM.loop, Bind.bind, Except.bind,
      pure, Except.pure, construirDetalle, findProducto, dbPan, prodPan,
      resolverPrecio, Option.orElse, toCents, round_eq, itemPan2, detPan2])
    (by simp)
    (by norm_num +decide [List.mapM, List.mapM.loop, Bind.bind, Except.bind,
      pure, Except.pure, convertirPagoACents, obtenerTasaCambio, normalizeMoneda,
      trimChars, toUpperChars, toCents, round_eq, pagoNIO2, dbPan])

/-- C6: a non-positive payment amount always fails regardless of currency; a
base-currency (non-USD) payment converts to `round(amount × 100)`; a USD
payment with effective rate `R` (explicit per-payment rate if given, else the
system default) fails whenever `R ≤ 0` and otherwise converts to
`round(amount × R × 100)`. -/
theorem C6_payment_conversion (pago : DetallePago) (tasaCambioBase : ℚ) :
    (pago.cantidad ≤ 0 →
      convertirPagoACents pago tasaCambioBase = .error .invalidPaymentAmount) ∧
    (0 < pago.cantidad → normalizeMoneda pago.moneda ≠ "USD" →
      convertirPagoACents pago tasaCambioBase = .ok (round (pago.cantidad * 100))) ∧
    (0 < pago.cantidad → normalizeMoneda pago.moneda = "USD" →
      (pago.tasa.getD tasaCambioBase ≤ 0 →
        convertirPagoACents pago tasaCambioBase = .error .invalidExchangeRate) ∧
      (0 < pago.tasa.getD tasaCambioBase →
        convertirPagoACents pago tasaCambioBase =
          .ok (round (pago.cantidad * pago.tasa.getD tasaCambioBase * 100)))) := by
  unfold convertirPagoACents toCents
  refine ⟨fun hle => ?_, fun hpos hne => ?_, fun hpos heq => ⟨fun hle => ?_, fun hgt => ?_⟩⟩
  · rw [if_pos hle]
  · rw [if_neg (not_le.mpr hpos), if_neg hne]
  · rw [if_neg (not_le.mpr hpos), if_pos heq]
    dsimp only
    rw [if_pos hle]
  · rw [if_neg (not_le.mpr hpos), if_pos heq]
    dsimp only
    rw [if_neg (not_le.mpr hgt)]

/-- Witness for C6 at concrete payments (default rate 1): 5 USD at explicit
rate 36 → 18000 cents; 3 NIO → 300 cents; USD at explicit rate 0 fails; a
zero amount fails. -/
theorem C6_witness :
    convertirPagoACents { moneda := "USD", cantidad := 5, tasa := some 36 } 1 =
      .ok 18000 ∧
    convertirPagoACents { moneda := "NIO", cantidad := 3, tasa := none } 1 =
      .ok 300 ∧
    convertirPagoACents { moneda := "USD", cantidad := 5, tasa := some 0 } 1 =
      .error .invalidExchangeRate ∧
    convertirPagoACents { moneda := "NIO", cantidad := 0, tasa := none } 1 =
      .error .invalidPaymentAmount := by
  refine ⟨?_, ?_, ?_, ?_⟩
  · have h := ((C6_payment_conversion { moneda := "USD", cantidad := 5, tasa := some 36 } 1).2.2
      (by norm_num) (by decide)).2 (by norm_num [Option.getD])
    rw [h]
    norm_num [Option.getD, round_eq]
  · have h := (C6_payment_conversion { moneda := "NIO", cantidad := 3, tasa := none } 1).2.1
      (by norm_num) (by decide)
    rw [h]
    norm_num [round_eq]
  · exact ((C6_payment_conversion { moneda := "USD", cantidad := 5, tasa := some 0 } 1).2.2
      (by norm_num) (by decide)).1 (by norm_num [Option.getD])
  · exact (C6_payment_conversion { moneda := "NIO", cantidad := 0, tasa := none } 1).1
      (by norm_num)

/-- C10 (implicit): when the configuration store holds no positive exchange
rate and the service has no positive constructor fallback, the default rate
is `1`, so a positive USD payment with no explicit rate converts to
`round(amount × 100)` — one base-currency unit per USD — instead of failing. -/
theorem C10_default_rate_one (config fallback : Option ℚ) (pago : DetallePago)
    (hc : ∀ v ∈ config, v ≤ 0) (hf : ∀ f ∈ fallback, f ≤ 0)
    (hm : normalizeMoneda pago.moneda = "USD") (ht : pago.tasa = none)
    (hpos : 0 < pago.cantidad) :
    obtenerTasaCambio config fallback = 1 ∧
    convertirPagoACents pago (obtenerTasaCambio config fallback) =
      .ok (round (pago.cantidad * 100)) := by
  have h1 : obtenerTasaCambio config fallback = 1 := by
    cases config with
    | none =>
      cases fallback with
      | none => rfl
      | some f => simp [obtenerTasaCambio, not_lt.mpr (hf f rfl)]
    | some v =>
      cases fallback with
      | none => simp [obtenerTasaCambio, not_lt.mpr (hc v rfl)]
      | some f =>
        simp [obtenerTasaCambio, not_lt.mpr (hc v rfl), not_lt.mpr (hf f rfl)]
  refine ⟨h1, ?_⟩
  rw [h1]
  unfold convertirPagoACents
  rw [if_neg (not_le.mpr hpos), if_pos hm, ht]
  dsimp only [Option.getD]
  rw [if_neg (by norm_num : ¬ (1:ℚ) ≤ 0), mul_one]

/-- Witness for C10: empty config and no fallback with a 5-USD rate-less
payment — converted at rate 1 to 500 cents. -/
theorem C10_witness :
    obtenerTasaCambio none none = 1 ∧
    convertirPagoACents { moneda := "USD", cantidad := 5, tasa := none }
      (obtenerTasaCambio none none) = .ok (round ((5:ℚ) * 100)) :=
  C10_default_rate_one none none { moneda := "USD", cantidad := 5, tasa := none }
    (by simp) (by simp) (by decide) rfl (by norm_num)

/-- Inversion for the per-line cart step: a successful `construirDetalle`
records the positive quantity, the product as found in the store, the passed
stock check and the price snapshot. -/
theorem construirDetalle_ok_elim {db : DB} {item : ItemInput} {d : Detalle}
    (h : construirDetalle db item = .ok d) :
    0 < item.cantidad ∧
    findProducto db item.productoId = some d.producto ∧
    item.cantidad ≤ d.producto.stockDisponible ∧
    d.cantidad = item.cantidad ∧
    d.producto.id = item.productoId ∧
    (∀ precio, resolverPrecio d.producto = some precio →
      d.precioUnitarioCents = toCents precio) := by
  unfold construirDetalle at h
  by_cases h1 : item.cantidad ≤ 0
  · rw [if_pos h1] at h; exact absurd h (by intro hc; cases hc)
  · rw [if_neg h1] at h
    cases hp : findProducto db item.productoId with
    | none => rw [hp] at h; exact absurd h (by intro hc; cases hc)
    | some producto =>
      rw [hp] at h
      dsimp only at h
      by_cases h2 : producto.stockDisponible < item.cantidad
      · rw [if_pos h2] at h; exact absurd h (by intro hc; cases hc)
      · rw [if_neg h2] at h
        cases hpr : resolverPrecio producto with
        | none => rw [hpr] at h; exact absurd h (by intro hc; cases hc)
        | some precio =>
          rw [hpr] at h
          dsimp only at h
          cases h
          have hid : producto.id = item.productoId := by
            have := List.find?_some hp
            exact of_decide_eq_true this
          refine ⟨not_le.mp h1, rfl, not_lt.mp h2, rfl, hid, ?_⟩
          intro precio' hpr'
          have : precio' = precio := by
            have := hpr'.symm.trans hpr
            exact Option.some_injective _ this
          rw [this]

theorem forall₂_mem_left {α β : Type} {R : α → β → Prop} {l₁ : List α} {l₂ : List β}
    (h : List.Forall₂ R l₁ l₂) : ∀ a ∈ l₁, ∃ b ∈ l₂, R a b := by
  induction h with
  | nil => intro a ha; cases ha
  | cons hr htail ih =>
    intro a ha
    cases ha with
    | head => exact ⟨_, List.mem_cons_self _ _, hr⟩
    | tail _ hmem =>
      obtain ⟨b, hb, hab⟩ := ih a hmem
      exact ⟨b, List.mem_cons_of_mem _ hb, hab⟩

/-- Every priced line's product id is some cart line's product id. -/
theorem detalle_ids_of_forall₂ {db : DB} {items : List ItemInput}
    {detalles : List Detalle}
    (hfa : List.Forall₂ (fun it d => construirDetalle db it = .ok d) items detalles) :
    ∀ d ∈ detalles, ∃ it ∈ items, d.producto.id = it.productoId := by
  induction hfa with
  | nil => intro d hd; cases hd
  | cons hr htail ih =>
    intro d hd
    cases hd with
    | head => exact ⟨_, List.mem_cons_self _ _, (construirDetalle_ok_elim hr).2.2.2.2.1⟩
    | tail _ hmem =>
      obtain ⟨it, hit, heq⟩ := ih d hmem
      exact ⟨it, List.mem_cons_of_mem _ hit, heq⟩

/-- With distinct cart product ids, the write-back loop's final stock for any
stored product is its pre-settlement stock minus the summed cart quantity for
that id. -/
theorem stockTras_eq_sub_sum {db : DB} {items : List ItemInput}
    {detalles : List Detalle}
    (hfa : List.Forall₂ (fun it d => construirDetalle db it = .ok d) items detalles)
    (hnodup : (items.map (·.productoId)).Nodup)
    (pid : String) (p : Producto) (hp : findProducto db pid = some p) :
    stockTrasDecrementos pid p.stockDisponible detalles =
      p.stockDisponible
        - ((items.filter (fun it => it.productoId = pid)).map (·.cantidad)).sum := by
  induction hfa with
  | nil => simp [stockTrasDecrementos]
  | @cons it d its ds hr htail ih =>
    obtain ⟨hqty, hfind, hstk, hcant, hid, _⟩ := construirDetalle_ok_elim hr
    rw [List.map_cons, List.nodup_cons] at hnodup
    by_cases hcase : it.productoId = pid
    · have hdpid : d.producto.id = pid := hid.trans hcase
      have hdp : d.producto = p := by
        rw [hcase] at hfind
        exact Option.some_injective _ (hfind.symm.trans hp)
      have htail_ne : ∀ d' ∈ ds, d'.producto.id ≠ pid := by
        intro d' hd' hne
        obtain ⟨it', hit', heq⟩ := detalle_ids_of_forall₂ htail d' hd'
        apply hnodup.1
        have h1 : it'.productoId = it.productoId :=
          heq.symm.trans (hne.trans hcase.symm)
        exact h1 ▸ List.mem_map_of_mem _ hit'
      have hfAll : ((it :: its).filter (fun x => x.productoId = pid)) = [it] := by
        rw [List.filter_cons]
        rw [if_pos (by simp [hcase])]
        have hnil : its.filter (fun x => x.productoId = pid) = [] := by
          rw [List.filter_eq_nil_iff]
          intro it' hit' hdec
          have heq' : it'.productoId = pid := of_decide_eq_true hdec
          apply hnodup.1
          have h1 : it'.productoId = it.productoId := heq'.trans hcase.symm
          exact h1 ▸ List.mem_map_of_mem _ hit'
        rw [hnil]
      rw [hfAll]
      show stockTrasDecrementos pid p.stockDisponible (d :: ds) = _
      rw [stockTrasDecrementos, List.foldl_cons, if_pos hdpid,
        ← stockTrasDecrementos]
      rw [stockTrasDecrementos_no_match pid _ ds htail_ne, hdp]
      simp [hcant]
    · have hdpid : d.producto.id ≠ pid := by rw [hid]; exact hcase
      have hfstep : ((it :: its).filter (fun x => x.productoId = pid)) =
          its.filter (fun x => x.productoId = pid) := by
        rw [List.filter_cons, if_neg (by simp [hcase])]
      rw [hfstep]
      show stockTrasDecrementos pid p.stockDisponible (d :: ds) = _
      rw [stockTrasDecrementos, List.foldl_cons, if_neg hdpid,
        ← stockTrasDecrementos]
      exact ih hnodup.2

theorem forall₂_mem_right {α β : Type} {R : α → β → Prop} {l₁ : List α} {l₂ : List β}
    (h : List.Forall₂ R l₁ l₂) : ∀ b ∈ l₂, ∃ a ∈ l₁, R a b := by
  induction h with
  | nil => intro b hb; cases hb
  | cons hr htail ih =>
    intro b hb
    cases hb with
    | head => exact ⟨_, List.mem_cons_self _ _, hr⟩
    | tail _ hmem =>
      obtain ⟨a, ha, hab⟩ := ih b hmem
      exact ⟨a, List.mem_cons_of_mem _ ha, hab⟩

/-- C4 (amended): on a successful settlement, every cart line's product was
found and passed the `availableQuantity ≥ quantity` check; when the cart's
product ids are distinct (the amendment — with repeated lines each write is
computed from the pre-settlement stock and the last one wins), every stored
product's stock afterwards equals its pre-settlement stock minus the summed
cart quantity for its id; and a non-negative stock never becomes negative. -/
theorem C4_stock_check_and_decrement
    (db : DB) (fb : Option ℚ) (vid : String) (items : List ItemInput)
    (pagos : List DetallePago) (u : String) (dc : Option ℚ) (tv : TipoVenta)
    (eid : Option String) (db' : DB) (res : VentaResult)
    (hnodup : (items.map (·.productoId)).Nodup)
    (h : procesarVenta db fb vid items pagos u dc tv eid = (db', .ok res)) :
    (∀ item ∈ items, ∃ p, findProducto db item.productoId = some p ∧
        0 < item.cantidad ∧ item.cantidad ≤ p.stockDisponible) ∧
    (∀ pid p, findProducto db pid = some p →
        findProducto db' pid = some { p with stockDisponible :=
          p.stockDisponible
            - ((items.filter (fun it => it.productoId = pid)).map (·.cantidad)).sum }) ∧
    (∀ pid p p', findProducto db pid = some p → findProducto db' pid = some p' →
        0 ≤ p.stockDisponible → 0 ≤ p'.stockDisponible) := by
  have hc := procesarVenta_ok_elim h
  obtain ⟨pn, detalles, conv, hpn, hdet, hd, hconv, hpay, hdb, hres⟩ :=
    crearVenta_ok_elim hc
  subst hdb
  have hfa := (mapM_ok_iff_forall₂ (construirDetalle db) items detalles).mp hdet
  refine ⟨?_, ?_, ?_⟩
  · intro item hitem
    obtain ⟨d, _, hr⟩ := forall₂_mem_left hfa item hitem
    obtain ⟨hq, hfind, hstk, _, _, _⟩ := construirDetalle_ok_elim hr
    exact ⟨d.producto, hfind, hq, hstk⟩
  · intro pid p hp
    unfold findProducto at hp ⊢
    dsimp only
    rw [find?_aplicarDecrementos, hp, Option.map_some']
    have hpid : p.id = pid := by
      have h2 := List.find?_some hp
      exact of_decide_eq_true h2
    rw [hpid, stockTras_eq_sub_sum hfa hnodup pid p hp]
  · intro pid p p' hp hp' hnn
    unfold findProducto at hp hp'
    dsimp only at hp'
    rw [find?_aplicarDecrementos, hp, Option.map_some'] at hp'
    cases hp'
    have hds : ∀ d ∈ detalles, 0 ≤ d.producto.stockDisponible - d.cantidad := by
      intro d hd'
      obtain ⟨item, _, hr⟩ := forall₂_mem_right hfa d hd'
      obtain ⟨_, _, hstk, hcant, _, _⟩ := construirDetalle_ok_elim hr
      rw [hcant]
      exact sub_nonneg.mpr hstk
    exact stockTrasDecrementos_nonneg _ _ _ hds hnn

/-- Counterexample for C4 as frozen: the cart `[(p1,3),(p1,4)]` repeats the
product; both checks pass against the pre-settlement stock 5, the settlement
succeeds, and the final stock is `5 − 4 = 1` (the last line's write wins),
not `5 − (3+4) = −2` as the claim's summed formula demands. -/
theorem C4_counterexample :
    (procesarVenta dbPan none "v4"
        [{ productoId := "p1", cantidad := 3 }, { productoId := "p1", cantidad := 4 }]
        [{ moneda := "NIO", cantidad := 7, tasa := none }] "u" none .directa none).2 =
      .ok { venta := ventaC4, cambioCents := 0 } ∧
    findProducto (procesarVenta dbPan none "v4"
        [{ productoId := "p1", cantidad := 3 }, { productoId := "p1", cantidad := 4 }]
        [{ moneda := "NIO", cantidad := 7, tasa := none }] "u" none .directa none).1 "p1" =
      some { prodPan with stockDisponible := 1 } ∧
    ¬ ((1:ℚ) = prodPan.stockDisponible - (3 + 4)) := by
  refine ⟨?_, ?_, by norm_num [prodPan]⟩ <;>
    norm_num +decide [procesarVenta, crearVenta, withTursoTransaction,
      obtenerTasaCambio, resolverPrecio, Option.orElse, Option.getD, round_eq,
      List.mapM, List.mapM.loop, Bind.bind, Except.bind, pure, Except.pure,
      normalizarPago, construirDetalle, findProducto, dbPan, prodPan,
      normalizeMoneda, trimChars, toUpperChars, toCents, convertirPagoACents,
      aplicarDecrementos, updateStock, ventaDe, ventaC4]

/-- Witness for C4's amended theorem at the distinct-id cart of `C2_witness`:
after settling 2 units of `prodPan`, its stored stock is `5 − 2`. -/
theorem C4_witness :
    findProducto dbC2 "p1" = some { prodPan with stockDisponible :=
      prodPan.stockDisponible
        - (([itemPan2].filter (fun it => it.productoId = "p1")).map (·.cantidad)).sum } :=
  (C4_stock_check_and_decrement dbPan none "v1" [itemPan2] [pagoNIO2] "u"
    (some ((50:ℤ) : ℚ)) .directa none dbC2 { venta := ventaC2, cambioCents := 50 }
    (by simp)
    (by norm_num +decide [procesarVenta, crearVenta, withTursoTransaction,
      obtenerTasaCambio, resolverPrecio, Option.orElse, Option.getD, round_eq,
      List.mapM, List.mapM.loop, Bind.bind, Except.bind, pure, Except.pure,
      normalizarPago, construirDetalle, findProducto, dbPan, prodPan,
      normalizeMoneda, trimChars, toUpperChars, toCents, convertirPagoACents,
      aplicarDecrementos, updateStock, ventaDe, dbC2, ventaC2, itemPan2,
      pagoNIO2])).2.1
    "p1" prodPan (by norm_num +decide [findProducto, dbPan])

/-- A finished stock-restore loop incremented every product's stock by the
summed quantity of the sale's line items for that product (each step reads the
stock written by the previous one, so repeated items accumulate). -/
theorem incrementarStockItems_none_effect (productos ps : List Producto)
    (items : List VentaItemRow)
    (h : incrementarStockItems productos items = (ps, none)) :
    ∀ pid, ps.find? (fun p => p.id = pid) =
      (productos.find? (fun p => p.id = pid)).map
        (fun p => { p with stockDisponible := p.stockDisponible +
          ((items.filter (fun it => it.productoId = pid)).map (·.cantidad)).sum }) := by
  induction items generalizing productos with
  | nil =>
    intro pid
    unfold incrementarStockItems at h
    cases h
    cases hf : ps.find? (fun p => p.id = pid) <;> simp [hf]
  | cons item rest ih =>
    intro pid
    unfold incrementarStockItems at h
    cases hfind : productos.find? (fun p => p.id = item.productoId) with
    | none => rw [hfind] at h; cases h
    | some producto =>
      rw [hfind] at h
      have hid : producto.id = item.productoId := by
        have h2 := List.find?_some hfind
        exact of_decide_eq_true h2
      have heff := ih _ h pid
      rw [heff, find?_updateStock, Option.map_map]
      by_cases hcase : item.productoId = pid
      · have hpp : productos.find? (fun p => p.id = pid) = some producto := by
          rw [← hcase]; exact hfind
        rw [hpp]
        simp only [Option.map_some', Function.comp_def]
        simp [List.filter_cons, hcase, add_assoc]
      · rw [List.filter_cons, if_neg (by simp [hcase])]
        cases hfind0 : productos.find? (fun p => p.id = pid) with
        | none => simp
        | some p =>
          have hpne : p.id ≠ producto.id := by
            have h2 := List.find?_some hfind0
            have h3 : p.id = pid := of_decide_eq_true h2
            rw [h3, hid]
            exact fun hcontra => hcase hcontra.symm
          simp only [Option.map_some', Function.comp_def]
          rw [if_neg hpne]

/-- The stock-restore loop finishes when every referenced product is found. -/
theorem incrementarStockItems_none_of_found (productos : List Producto)
    (items : List VentaItemRow)
    (hfound : ∀ item ∈ items,
      (productos.find? (fun p => p.id = item.productoId)).isSome = true) :
    (incrementarStockItems productos items).2 = none := by
  induction items generalizing productos with
  | nil => rfl
  | cons item rest ih =>
    unfold incrementarStockItems
    cases hfind : productos.find? (fun p => p.id = item.productoId) with
    | none =>
      have := hfound item (List.mem_cons_self _ _)
      rw [hfind] at this
      cases this
    | some producto =>
      apply ih
      intro item' hitem'
      rw [find?_updateStock]
      have := hfound item' (List.mem_cons_of_mem _ hitem')
      cases hf0 : productos.find? (fun p => p.id = item'.productoId) with
      | none => rw [hf0] at this; cases this
      | some p => simp

/-- The persisted sale rows carry exactly the cart quantities, so per-product
filtered quantity sums agree between the sale's line items and the cart. -/
theorem venta_items_filter_sum {db : DB} {items : List ItemInput}
    {detalles : List Detalle}
    (hfa : List.Forall₂ (fun it d => construirDetalle db it = .ok d) items detalles)
    (pid : String) :
    (((detalles.map (fun d =>
        ({ productoId := d.producto.id, cantidad := d.cantidad,
           precioUnitarioCents := d.precioUnitarioCents,
           subtotalCents := d.subtotalCents } : VentaItemRow))).filter
        (fun it => it.productoId = pid)).map (·.cantidad)).sum =
      ((items.filter (fun it => it.productoId = pid)).map (·.cantidad)).sum := by
  induction hfa with
  | nil => rfl
  | @cons it d its ds hr htail ih =>
    obtain ⟨_, _, _, hcant, hid, _⟩ := construirDetalle_ok_elim hr
    simp only [List.map_cons, List.filter_cons]
    by_cases hcase : it.productoId = pid
    · rw [if_pos (by simp [hid, hcase]), if_pos (by simp [hcase])]
      simp only [List.map_cons, List.sum_cons]
      rw [hcant, ih]
    · rw [if_neg (by simp [hid, hcase]), if_neg (by simp [hcase])]
      exact ih

/-- Inversion for a successful `anularVenta`: the sale was found, the restore
loop finished, stock was written back and the sale row (with its children)
deleted. -/
theorem anularVenta_ok_elim {db db' : DB} {saleId : String} {venta : Venta}
    (h : anularVenta db saleId = (db', .ok venta)) :
    findVenta db saleId = some venta ∧
    ∃ ps, incrementarStockItems db.productos venta.items = (ps, none) ∧
      db' = { db with
                productos := ps,
                ventas := db.ventas.filter (fun v => ¬ v.id = saleId) } := by
  unfold anularVenta at h
  have h' := withTursoTransaction_ok_elim h
  cases hfv : findVenta db saleId with
  | none => rw [hfv] at h'; exact absurd h' (by intro hc; cases hc)
  | some venta0 =>
    rw [hfv] at h'
    dsimp only at h'
    rcases hinc : incrementarStockItems db.productos venta0.items with ⟨ps, err⟩
    rw [hinc] at h'
    cases err with
    | some e => exact absurd h' (by intro hc; cases hc)
    | none =>
      have hdb : db' = { db with
          productos := ps,
          ventas := db.ventas.filter (fun v => ¬ v.id = saleId) } :=
        (congrArg Prod.fst h').symm
      have hv : venta0 = venta := by
        have := congrArg Prod.snd h'
        simp only at this
        cases this
        rfl
      subst hv
      exact ⟨rfl, ps, hinc, hdb⟩

/-- C5 (amended): voiding a settled sale increments each referenced product's
stock by the summed quantity of that sale's line items for it (repeated items
accumulate, each read seeing the previous write) and deletes the sale row with
its line items and payments; consequently, for a cart whose product ids are
distinct (the amendment — with a repeated product the settlement loses all but
the last decrement while the void restores the full sum), settling and then
voiding the produced sale returns every product to its pre-settlement row and
removes the sale. -/
theorem C5_void_inverts_settlement
    (db : DB) (fb : Option ℚ) (vid : String) (items : List ItemInput)
    (pagos : List DetallePago) (u : String) (dc : Option ℚ) (tv : TipoVenta)
    (eid : Option String) (db' : DB) (res : VentaResult)
    (dbv dbv' : DB) (saleId : String) (venta : Venta) :
    (anularVenta dbv saleId = (dbv', .ok venta) →
      findVenta dbv saleId = some venta ∧
      dbv'.ventas = dbv.ventas.filter (fun v => ¬ v.id = saleId) ∧
      (∀ pid, findProducto dbv' pid = (findProducto dbv pid).map
        (fun p => { p with stockDisponible := p.stockDisponible +
          ((venta.items.filter (fun it => it.productoId = pid)).map (·.cantidad)).sum }))) ∧
    ((items.map (·.productoId)).Nodup →
      (∀ v ∈ db.ventas, v.id ≠ vid) →
      procesarVenta db fb vid items pagos u dc tv eid = (db', .ok res) →
      (anularVenta db' vid).2 = .ok res.venta ∧
      (∀ pid, findProducto (anularVenta db' vid).1 pid = findProducto db pid) ∧
      (anularVenta db' vid).1.ventas = db.ventas) := by
  constructor
  · intro h
    obtain ⟨hfv, ps, hinc, hdb⟩ := anularVenta_ok_elim h
    subst hdb
    refine ⟨hfv, rfl, ?_⟩
    intro pid
    exact incrementarStockItems_none_effect _ _ _ hinc pid
  · intro hnodup hfresh h
    have hc := procesarVenta_ok_elim h
    obtain ⟨pn, detalles, conv, hpn, hdet, hd, hconv, hpay, hdb, hres⟩ :=
      crearVenta_ok_elim hc
    subst hdb
    have hfa := (mapM_ok_iff_forall₂ (construirDetalle db) items detalles).mp hdet
    set ventaNew := ventaDe vid detalles pn u tv dc eid with hventa
    have hvid : ventaNew.id = vid := rfl
    have hfv : findVenta
        { db with productos := aplicarDecrementos db.productos detalles,
                  ventas := db.ventas ++ [ventaNew] } vid = some ventaNew := by
      show (db.ventas ++ [ventaNew]).find? (fun v => v.id = vid) = some ventaNew
      rw [List.find?_append]
      have h1 : db.ventas.find? (fun v => v.id = vid) = none := by
        rw [List.find?_eq_none]
        intro v hv
        simp [hfresh v hv]
      rw [h1, Option.none_or]
      simp [hvid]
    have hfound : ∀ item ∈ ventaNew.items,
        ((aplicarDecrementos db.productos detalles).find?
          (fun p => p.id = item.productoId)).isSome = true := by
      intro item hitem
      have hitems : ventaNew.items = detalles.map (fun d =>
          ({ productoId := d.producto.id, cantidad := d.cantidad,
             precioUnitarioCents := d.precioUnitarioCents,
             subtotalCents := d.subtotalCents } : VentaItemRow)) := rfl
      rw [hitems] at hitem
      obtain ⟨d, hd', hmk⟩ := List.mem_map.mp hitem
      obtain ⟨it, _, hr⟩ := forall₂_mem_right hfa d hd'
      obtain ⟨_, hfind, _, _, hdid, _⟩ := construirDetalle_ok_elim hr
      rw [find?_aplicarDecrementos]
      rw [← hmk]
      dsimp only
      have : db.productos.find? (fun p => p.id = d.producto.id) = some d.producto := by
        rw [hdid]
        exact hfind
      rw [this]
      rfl
    have hinc2 : (incrementarStockItems (aplicarDecrementos db.productos detalles)
        ventaNew.items).2 = none :=
      incrementarStockItems_none_of_found _ _ hfound
    rcases hincEq : incrementarStockItems (aplicarDecrementos db.productos detalles)
        ventaNew.items with ⟨ps, err⟩
    have herr : err = none := by rw [hincEq] at hinc2; exact hinc2
    subst herr
    have hanular : anularVenta
        { db with productos := aplicarDecrementos db.productos detalles,
                  ventas := db.ventas ++ [ventaNew] } vid =
        ({ productos := ps,
           ventas := (db.ventas ++ [ventaNew]).filter (fun v => ¬ v.id = vid),
           encargos := db.encargos, configTasaCambio := db.configTasaCambio },
         .ok ventaNew) := by
      unfold anularVenta
      apply withTursoTransaction_of_ok
      rw [show findVenta
        { db with productos := aplicarDecrementos db.productos detalles,
                  ventas := db.ventas ++ [ventaNew] } vid = some ventaNew from hfv]
      dsimp only
      rw [hincEq]
    have hventasEq : (db.ventas ++ [ventaNew]).filter (fun v => ¬ v.id = vid) =
        db.ventas := by
      rw [List.filter_append]
      have h1 : db.ventas.filter (fun v => ¬ v.id = vid) = db.ventas := by
        rw [List.filter_eq_self]
        intro v hv
        simp [hfresh v hv]
      have h2 : [ventaNew].filter (fun v => ¬ v.id = vid) = [] := by
        simp [List.filter_cons, hvid]
      rw [h1, h2, List.append_nil]
    refine ⟨?_, ?_, ?_⟩
    · rw [hanular, hres]
    · intro pid
      rw [hanular]
      show ps.find? (fun p => p.id = pid) = _
      rw [incrementarStockItems_none_effect _ _ _ hincEq pid]
      show Option.map _ ((aplicarDecrementos db.productos detalles).find?
        (fun p => p.id = pid)) = _
      rw [find?_aplicarDecrementos, Option.map_map]
      show _ = db.productos.find? (fun p => p.id = pid)
      cases hp : db.productos.find? (fun p => p.id = pid) with
      | none => simp
      | some p =>
        simp only [Option.map_some', Function.comp_def]
        have hpid : p.id = pid := by
          have h2 := List.find?_some hp
          exact of_decide_eq_true h2
        rw [show stockTrasDecrementos p.id p.stockDisponible detalles =
              stockTrasDecrementos pid p.stockDisponible detalles from by rw [hpid]]
        rw [stockTras_eq_sub_sum hfa hnodup pid p hp]
        have hsum : ((ventaNew.items.filter (fun it => it.productoId = pid)).map
            (·.cantidad)).sum =
            ((items.filter (fun it => it.productoId = pid)).map (·.cantidad)).sum :=
          venta_items_filter_sum hfa pid
        rw [hsum]
        simp
    · rw [hanular]
      exact hventasEq

/-- Counterexample for C5 as frozen: settling the duplicate cart
`[(p1,2),(p1,2)]` from stock 5 leaves stock 3 (only the last decrement
survives), and voiding the produced sale adds back 2+2, ending at stock 7 —
the settle-then-void round trip does not return stock to its pre-settlement
value 5. -/
theorem C5_counterexample :
    (procesarVenta dbPan none "v5"
        [{ productoId := "p1", cantidad := 2 }, { productoId := "p1", cantidad := 2 }]
        [{ moneda := "NIO", cantidad := 4, tasa := none }] "u" none .directa none).2 =
      .ok { venta := ventaC5, cambioCents := 0 } ∧
    (anularVenta (procesarVenta dbPan none "v5"
        [{ productoId := "p1", cantidad := 2 }, { productoId := "p1", cantidad := 2 }]
        [{ moneda := "NIO", cantidad := 4, tasa := none }] "u" none .directa none).1
      "v5").2 = .ok ventaC5 ∧
    findProducto (anularVenta (procesarVenta dbPan none "v5"
        [{ productoId := "p1", cantidad := 2 }, { productoId := "p1", cantidad := 2 }]
        [{ moneda := "NIO", cantidad := 4, tasa := none }] "u" none .directa none).1
      "v5").1 "p1" = some { prodPan with stockDisponible := 7 } ∧
    ¬ ((7:ℚ) = prodPan.stockDisponible) := by
  refine ⟨?_, ?_, ?_, by norm_num [prodPan]⟩ <;>
    norm_num +decide [procesarVenta, crearVenta, withTursoTransaction, anularVenta,
      findVenta, incrementarStockItems, obtenerTasaCambio, resolverPrecio,
      Option.orElse, Option.getD, round_eq, List.mapM, List.mapM.loop, Bind.bind,
      Except.bind, pure, Except.pure, normalizarPago, construirDetalle,
      findProducto, dbPan, prodPan, normalizeMoneda, trimChars, toUpperChars,
      toCents, convertirPagoACents, aplicarDecrementos, updateStock, ventaDe,
      ventaC5, List.find?, List.filter]

/-- Witness for C5's amended theorem: settling then voiding the distinct-id
cart of 2 units of `prodPan` restores the product row and removes the sale. -/
theorem C5_witness :
    (anularVenta dbC2 "v1").2 = .ok ventaC2 ∧
    findProducto (anularVenta dbC2 "v1").1 "p1" = findProducto dbPan "p1" ∧
    (anularVenta dbC2 "v1").1.ventas = dbPan.ventas := by
  obtain ⟨h1, h2, h3⟩ := (C5_void_inverts_settlement dbPan none "v1" [itemPan2]
      [pagoNIO2] "u" (some ((50:ℤ) : ℚ)) .directa none dbC2
      { venta := ventaC2, cambioCents := 50 } db0 db0 "x" ventaC2).2
    (by simp) (by simp [dbPan])
    (by norm_num +decide [procesarVenta, crearVenta, withTursoTransaction,
      obtenerTasaCambio, resolverPrecio, Option.orElse, Option.getD, round_eq,
      List.mapM, List.mapM.loop, Bind.bind, Except.bind, pure, Except.pure,
      normalizarPago, construirDetalle, findProducto, dbPan, prodPan,
      normalizeMoneda, trimChars, toUpperChars, toCents, convertirPagoACents,
      aplicarDecrementos, updateStock, ventaDe, dbC2, ventaC2, itemPan2,
      pagoNIO2])
  exact ⟨h1, h2 "p1", h3⟩

/-- Updating one order's row commutes with point lookup, for any id-preserving
row update. -/
theorem findEncargo_updateEncargo (l : List Encargo) (eid qid : String)
    (f : Encargo → Encargo) (hf : ∀ e, (f e).id = e.id) :
    (updateEncargo l eid f).find? (fun e => e.id = qid) =
      (l.find? (fun e => e.id = qid)).map (fun e => if e.id = eid then f e else e) := by
  unfold updateEncargo
  rw [List.find?_map]
  have hpred :
      ((fun e => decide (e.id = qid)) ∘ fun e => if e.id = eid then f e else e) =
      (fun e : Encargo => decide (e.id = qid)) := by
    funext e
    by_cases h : e.id = eid <;> simp [h, hf]
  rw [hpred]

/-- C8 (spec-modelled): cancelling an advance order fails with
`orderNotPending` on a non-`PENDIENTE` order; on a pending order it marks it
`CANCELADO` and changes nothing else — products and sales are untouched, and
the order keeps its items, estimated total and (unrefunded) deposits. -/
theorem C8_cancel_only_pending
    (db : DB) (encargoId : String) (encargo : Encargo)
    (hE : findEncargo db encargoId = some encargo) :
    (encargo.estado ≠ .pendiente →
      cancelarEncargo db encargoId = (db, .error .orderNotPending)) ∧
    (encargo.estado = .pendiente →
      cancelarEncargo db encargoId =
        ({ db with
             encargos :=
               updateEncargo db.encargos encargoId
                 (fun e => { e with estado := .cancelado }) },
         .ok { encargo with estado := .cancelado }) ∧
      (cancelarEncargo db encargoId).1.productos = db.productos ∧
      (cancelarEncargo db encargoId).1.ventas = db.ventas ∧
      ({ encargo with estado := .cancelado }).abonos = encargo.abonos ∧
      ({ encargo with estado := .cancelado }).items = encargo.items ∧
      ({ encargo with estado := .cancelado }).totalEstimadoCents =
        encargo.totalEstimadoCents) := by
  have hid : encargo.id = encargoId := by
    have h2 := List.find?_some hE
    exact of_decide_eq_true h2
  constructor
  · intro hnp
    unfold cancelarEncargo
    apply withTursoTransaction_of_error
    rw [hE]
    dsimp only
    rw [if_pos hnp]
  · intro hp
    have heq : cancelarEncargo db encargoId =
        ({ db with
             encargos :=
               updateEncargo db.encargos encargoId
                 (fun e => { e with estado := .cancelado }) },
         .ok { encargo with estado := .cancelado }) := by
      unfold cancelarEncargo
      apply withTursoTransaction_of_ok
      rw [hE]
      dsimp only
      rw [if_neg (by simp [hp])]
      have hre : findEncargo
          { db with
              encargos :=
                updateEncargo db.encargos encargoId
                  (fun e => { e with estado := .cancelado }) } encargoId =
          some { encargo with estado := .cancelado } := by
        show (updateEncargo db.encargos encargoId
            (fun e => { e with estado := .cancelado })).find?
            (fun e => e.id = encargoId) = _
        rw [findEncargo_updateEncargo db.encargos encargoId encargoId
          (fun e => { e with estado := .cancelado }) (fun e => rfl)]
        rw [show db.encargos.find? (fun e => e.id = encargoId) = some encargo from hE]
        rw [Option.map_some', if_pos hid]
      rw [hre]
    refine ⟨heq, ?_, ?_, rfl, rfl, rfl⟩
    · rw [heq]
    · rw [heq]

/-- Witness for C8: cancelling the pending order `encPan` in `dbEnc` marks it
`CANCELADO`, leaves products and sales untouched, and keeps its deposits. -/
theorem C8_witness :
    cancelarEncargo dbEnc "o1" =
      ({ dbEnc with
           encargos :=
             updateEncargo dbEnc.encargos "o1"
               (fun e => { e with estado := .cancelado }) },
       .ok { encPan with estado := .cancelado }) ∧
    (cancelarEncargo dbEnc "o1").1.productos = dbEnc.productos ∧
    (cancelarEncargo dbEnc "o1").1.ventas = dbEnc.ventas ∧
    ({ encPan with estado := .cancelado }).abonos = encPan.abonos ∧
    ({ encPan with estado := .cancelado }).items = encPan.items ∧
    ({ encPan with estado := .cancelado }).totalEstimadoCents =
      encPan.totalEstimadoCents :=
  (C8_cancel_only_pending dbEnc "o1" encPan (by rfl)).2 rfl

/-- Inversion for a successful `registrarAbono`: the order existed, was
pending, the amount was positive, and the only change is one appended deposit
row on that order. -/
theorem registrarAbono_ok_elim {db db' : DB} {encargoId : String} {monto : ℚ}
    {medio : Option String} {enc' : Encargo}
    (h : registrarAbono db encargoId monto medio = (db', .ok enc')) :
    ∃ encargo, findEncargo db encargoId = some encargo ∧
      encargo.estado = .pendiente ∧ ¬ monto ≤ 0 ∧
      db' = { db with
        encargos := updateEncargo db.encargos encargoId (fun e =>
          { e with abonos := e.abonos ++
              [{ montoCents := toCents monto, medioPago := medio }] }) } ∧
      findEncargo db' encargoId = some enc' := by
  unfold registrarAbono at h
  by_cases hm : monto ≤ 0
  · rw [if_pos hm] at h; exact absurd h (by intro hc; cases hc)
  · rw [if_neg hm] at h
    have h' := withTursoTransaction_ok_elim h
    cases hE : findEncargo db encargoId with
    | none => rw [hE] at h'; exact absurd h' (by intro hc; cases hc)
    | some encargo =>
      rw [hE] at h'
      dsimp only at h'
      by_cases hp : encargo.estado ≠ EncargoEstado.pendiente
      · rw [if_pos hp] at h'; exact absurd h' (by intro hc; cases hc)
      · rw [if_neg hp] at h'
        cases hre : findEncargo
            { db with
              encargos := updateEncargo db.encargos encargoId (fun e =>
                { e with abonos := e.abonos ++
                    [{ montoCents := toCents monto, medioPago := medio }] }) }
            encargoId with
        | none => rw [hre] at h'; exact absurd h' (by intro hc; cases hc)
        | some e' =>
          rw [hre] at h'
          injection h' with h1 h2
          injection h2 with h3
          refine ⟨encargo, rfl, not_not.mp hp, hm, h1.symm, ?_⟩
          rw [← h1, hre, h3]

/-- Inversion for a successful `finalizarEncargo`: the order existed and was
pending, the locked cart settled through `crearVenta` with the deposits
converted to base-currency payment lines ahead of the extra payments, and the
only further change marks the order `ENTREGADO` linked to the new sale. -/
theorem finalizarEncargo_ok_elim {db db' : DB} {fb : Option ℚ}
    {vid encargoId : String} {pagosFinales : List DetallePago} {u : String}
    {dc : Option ℚ} {res : VentaResult} {enc' : Encargo}
    (h : finalizarEncargo db fb vid encargoId pagosFinales u dc = (db', .ok (res, enc'))) :
    ∃ encargo tx',
      findEncargo db encargoId = some encargo ∧
      encargo.estado = .pendiente ∧
      crearVenta db vid (encargo.items.map itemDeEncargo)
        (encargo.abonos.map pagoDeAbono ++ pagosFinales)
        u (obtenerTasaCambio db.configTasaCambio fb) .encargo dc (some encargoId) =
        (tx', .ok res) ∧
      db' = { tx' with
        encargos := updateEncargo tx'.encargos encargoId (fun e =>
          { e with estado := .entregado, ventaId := some vid }) } ∧
      findEncargo db' encargoId = some enc' := by
  unfold finalizarEncargo at h
  by_cases hu : (trimChars u).isEmpty
  · rw [if_pos hu] at h; exact absurd h (by intro hc; cases hc)
  · rw [if_neg hu] at h
    have h' := withTursoTransaction_ok_elim h
    cases hE : findEncargo db encargoId with
    | none => rw [hE] at h'; exact absurd h' (by intro hc; cases hc)
    | some encargo =>
      rw [hE] at h'
      dsimp only at h'
      by_cases hp : encargo.estado ≠ EncargoEstado.pendiente
      · rw [if_pos hp] at h'; exact absurd h' (by intro hc; cases hc)
      · rw [if_neg hp] at h'
        by_cases hit : (encargo.items.map itemDeEncargo).isEmpty
        · rw [if_pos hit] at h'; exact absurd h' (by intro hc; cases hc)
        · rw [if_neg hit] at h'
          by_cases hpc : (encargo.abonos.map pagoDeAbono ++ pagosFinales).isEmpty
          · rw [if_pos hpc] at h'; exact absurd h' (by intro hc; cases hc)
          · rw [if_neg hpc] at h'
            rcases hcv : crearVenta db vid (encargo.items.map itemDeEncargo)
                (encargo.abonos.map pagoDeAbono ++ pagosFinales)
                u (obtenerTasaCambio db.configTasaCambio fb) .encargo dc
                (some encargoId) with ⟨txe, r⟩
            rw [hcv] at h'
            cases r with
            | error e => exact absurd h' (by intro hc; cases hc)
            | ok resV =>
              dsimp only at h'
              cases hre : findEncargo
                  { txe with
                    encargos := updateEncargo txe.encargos encargoId (fun e =>
                      { e with estado := .entregado, ventaId := some vid }) }
                  encargoId with
              | none => rw [hre] at h'; exact absurd h' (by intro hc; cases hc)
              | some e' =>
                rw [hre] at h'
                injection h' with h1 h2
                injection h2 with h3
                injection h3 with h4 h5
                refine ⟨encargo, txe, rfl, not_not.mp hp, ?_, h1.symm, ?_⟩
                · rw [hcv, h4]
                · rw [← h1, hre, h5]

/-- C9: after creation, an order's stored estimated total and locked item rows
never change — registering a deposit preserves every order's total and items,
a product price update does not touch the `encargos` table at all, and
finalization changes only the order's status and sale link; moreover finalize
re-prices exactly the locked quantities against the current product prices. -/
theorem C9_order_snapshot_frame
    (db dbA dbF : DB) (encargoId : String) (monto : ℚ) (medio : Option String)
    (encA : Encargo) (pid : String) (pu pv : Option ℚ)
    (fb : Option ℚ) (vid : String) (pagosFinales : List DetallePago) (u : String)
    (dc : Option ℚ) (res : VentaResult) (enc' : Encargo) :
    (registrarAbono db encargoId monto medio = (dbA, .ok encA) →
      ∀ eid, ((findEncargo dbA eid).map (·.totalEstimadoCents) =
          (findEncargo db eid).map (·.totalEstimadoCents)) ∧
        ((findEncargo dbA eid).map (·.items) = (findEncargo db eid).map (·.items))) ∧
    ((actualizarProducto db pid pu pv).1.encargos = db.encargos) ∧
    (finalizarEncargo db fb vid encargoId pagosFinales u dc = (dbF, .ok (res, enc')) →
      ∀ eid, ((findEncargo dbF eid).map (·.totalEstimadoCents) =
          (findEncargo db eid).map (·.totalEstimadoCents)) ∧
        ((findEncargo dbF eid).map (·.items) = (findEncargo db eid).map (·.items))) ∧
    (finalizarEncargo db fb vid encargoId pagosFinales u dc = (dbF, .ok (res, enc')) →
      ∀ encargo, findEncargo db encargoId = some encargo →
        List.Forall₂ (fun (it : EncargoItemRow) (row : VentaItemRow) =>
          row.productoId = it.productoId ∧ row.cantidad = it.cantidad ∧
          (∀ p precio, findProducto db it.productoId = some p →
            resolverPrecio p = some precio →
            row.precioUnitarioCents = toCents precio))
          encargo.items res.venta.items) := by
  refine ⟨?_, ?_, ?_, ?_⟩
  · intro h eid
    obtain ⟨encargo, hE, hp, hm, hdb, hre⟩ := registrarAbono_ok_elim h
    subst hdb
    constructor <;>
    · show Option.map _ ((updateEncargo db.encargos encargoId (fun e =>
          { e with abonos := e.abonos ++
              [{ montoCents := toCents monto, medioPago := medio }] })).find?
          (fun e => e.id = eid)) = _
      rw [findEncargo_updateEncargo db.encargos encargoId eid
          (fun e => { e with abonos := e.abonos ++
            [{ montoCents := toCents monto, medioPago := medio }] }) (fun e => rfl),
        Option.map_map,
        show findEncargo db eid = db.encargos.find? (fun e => e.id = eid) from rfl]
      cases hf0 : db.encargos.find? (fun e => e.id = eid) with
      | none => rfl
      | some e =>
        simp only [Option.map_some', Function.comp_def]
        by_cases hcase : e.id = encargoId <;> simp [hcase]
  · unfold actualizarProducto
    cases hf : findProducto db pid with
    | none => rfl
    | some p => rfl
  · intro h eid
    obtain ⟨encargo, tx', hE, hp, hcv, hdb, hre⟩ := finalizarEncargo_ok_elim h
    obtain ⟨pn, detalles, conv, hpn, hdet, hd, hconv, hpay, hdbtx, hres⟩ :=
      crearVenta_ok_elim hcv
    subst hdbtx
    rw [hdb]
    constructor <;>
    · show Option.map _ ((updateEncargo db.encargos encargoId (fun e =>
          { e with estado := .entregado, ventaId := some vid })).find?
          (fun e => e.id = eid)) = _
      rw [findEncargo_updateEncargo db.encargos encargoId eid
          (fun e => { e with estado := .entregado, ventaId := some vid })
          (fun e => rfl),
        Option.map_map,
        show findEncargo db eid = db.encargos.find? (fun e => e.id = eid) from rfl]
      cases hf0 : db.encargos.find? (fun e => e.id = eid) with
      | none => rfl
      | some e =>
        simp only [Option.map_some', Function.comp_def]
        by_cases hcase : e.id = encargoId <;> simp [hcase]
  · intro h encargo0 hE0
    obtain ⟨encargo, tx', hE, hp, hcv, hdb, hre⟩ := finalizarEncargo_ok_elim h
    have henc0 : encargo0 = encargo := by
      have h2 := hE0.symm.trans hE
      exact Option.some_injective _ h2
    subst henc0
    obtain ⟨pn, detalles, conv, hpn, hdet, hd, hconv, hpay, hdbtx, hres⟩ :=
      crearVenta_ok_elim hcv
    subst hres
    show List.Forall₂ _ encargo0.items
      ((ventaDe vid detalles pn u .encargo dc (some encargoId)).items)
    show List.Forall₂ _ encargo0.items (detalles.map (fun d =>
      ({ productoId := d.producto.id, cantidad := d.cantidad,
         precioUnitarioCents := d.precioUnitarioCents,
         subtotalCents := d.subtotalCents } : VentaItemRow)))
    rw [List.forall₂_map_right_iff]
    have hfa := (mapM_ok_iff_forall₂ (construirDetalle db) _ detalles).mp hdet
    rw [List.forall₂_map_left_iff] at hfa
    refine List.Forall₂.imp ?_ hfa
    intro it d hr
    obtain ⟨_, hfind, _, hcant, hid, hprice⟩ := construirDetalle_ok_elim hr
    refine ⟨hid, hcant, ?_⟩
    intro p precio hfp hpr
    have hpd : p = d.producto := by
      have h2 := hfp.symm.trans hfind
      exact Option.some_injective _ h2
    subst hpd
    exact hprice precio hpr

/-- Witness for C9: on the concrete pending order `encPan`, a 1-NIO deposit
and a finalization both leave the stored estimated total and items unchanged,
a price update leaves the orders table alone, and the finalize sale re-prices
the locked quantities at current prices. -/
theorem C9_witness :
    ((findEncargo dbEncAb "o1").map (·.totalEstimadoCents) =
      (findEncargo dbEnc "o1").map (·.totalEstimadoCents)) ∧
    ((findEncargo dbEncAb "o1").map (·.items) =
      (findEncargo dbEnc "o1").map (·.items)) ∧
    (actualizarProducto dbEnc "p1" none (some 2)).1.encargos = dbEnc.encargos ∧
    ((findEncargo dbEncFin "o1").map (·.totalEstimadoCents) =
      (findEncargo dbEnc "o1").map (·.totalEstimadoCents)) ∧
    ((findEncargo dbEncFin "o1").map (·.items) =
      (findEncargo dbEnc "o1").map (·.items)) ∧
    List.Forall₂ (fun (it : EncargoItemRow) (row : VentaItemRow) =>
      row.productoId = it.productoId ∧ row.cantidad = it.cantidad ∧
      (∀ p precio, findProducto dbEnc it.productoId = some p →
        resolverPrecio p = some precio → row.precioUnitarioCents = toCents precio))
      encPan.items ventaC7.items := by
  obtain ⟨ha, hb, hc, hd⟩ := C9_order_snapshot_frame dbEnc dbEncAb dbEncFin "o1"
    1 none encPanAb "p1" none (some 2) none "v7" [pagoNIO1] "u" none
    { venta := ventaC7, cambioCents := 0 } encPanFin
  have habono : registrarAbono dbEnc "o1" 1 none = (dbEncAb, .ok encPanAb) := by
    norm_num +decide [registrarAbono, withTursoTransaction, findEncargo,
      updateEncargo, toCents, round_eq, dbEnc, encPan, dbEncAb, encPanAb,
      List.find?]
  have hfin : finalizarEncargo dbEnc none "v7" "o1" [pagoNIO1] "u" none =
      (dbEncFin, .ok ({ venta := ventaC7, cambioCents := 0 }, encPanFin)) := by
    norm_num +decide [finalizarEncargo, crearVenta, withTursoTransaction,
      obtenerTasaCambio, resolverPrecio, Option.orElse, Option.getD, round_eq,
      List.mapM, List.mapM.loop, Bind.bind, Except.bind, pure, Except.pure,
      normalizarPago, construirDetalle, findProducto, findEncargo, updateEncargo,
      dbEnc, encPan, prodPan, normalizeMoneda, trimChars, toUpperChars, toCents,
      fromCents, convertirPagoACents, aplicarDecrementos, updateStock, ventaDe,
      dbEncFin, encPanFin, ventaC7, pagoNIO1, pagoDeAbono, itemDeEncargo,
      List.find?]
  obtain ⟨h1, h2⟩ := ha habono "o1"
  obtain ⟨h3, h4⟩ := hc hfin "o1"
  have h5 := hd hfin encPan (by rfl)
  exact ⟨h1, h2, hb, h3, h4, h5⟩

/-- A deposit's synthesized base-currency payment line normalizes to itself
(the currency is already `"NIO"` and carries no rate). -/
theorem normalizarPago_abono (a : AbonoRow) (t : ℚ) :
    normalizarPago (pagoDeAbono a) t = .ok (pagoDeAbono a) := by
  unfold normalizarPago pagoDeAbono
  rw [if_neg (by decide : ¬ normalizeMoneda "NIO" = "USD")]
  rfl

/-- A positive deposit's payment line converts back to exactly its cents. -/
theorem convertirPago_abono (a : AbonoRow) (t : ℚ) (hm : 0 < a.montoCents) :
    convertirPagoACents (pagoDeAbono a) t = .ok a.montoCents := by
  unfold convertirPagoACents pagoDeAbono
  rw [if_neg (not_le.mpr ((fromCents_pos_iff a.montoCents).mpr hm)),
    if_neg (by decide : ¬ normalizeMoneda "NIO" = "USD"), toCents_fromCents]

/-- Normalizing the deposit-derived payment list is the identity. -/
theorem mapM_normalizar_abonos (abonos : List AbonoRow) (t : ℚ) :
    (abonos.map pagoDeAbono).mapM (fun p => normalizarPago p t) =
      .ok (abonos.map pagoDeAbono) := by
  induction abonos with
  | nil => rfl
  | cons a rest ih =>
    rw [List.map_cons, List.mapM_cons, normalizarPago_abono a t]
    rw [show (do
        let x ← (Except.ok (pagoDeAbono a) : Except SalesError DetallePago)
        let xs ← (rest.map pagoDeAbono).mapM (fun p => normalizarPago p t)
        pure (x :: xs)) =
      ((rest.map pagoDeAbono).mapM (fun p => normalizarPago p t)).map
        (fun xs => pagoDeAbono a :: xs) from rfl]
    rw [ih]
    rfl

/-- Converting the deposit-derived payment list yields exactly the deposit
cents, provided every deposit is positive. -/
theorem mapM_convertir_abonos (abonos : List AbonoRow) (t : ℚ)
    (hpos : ∀ a ∈ abonos, 0 < a.montoCents) :
    (abonos.map pagoDeAbono).mapM (fun p => convertirPagoACents p t) =
      .ok (abonos.map (·.montoCents)) := by
  induction abonos with
  | nil => rfl
  | cons a rest ih =>
    rw [List.map_cons, List.mapM_cons,
      convertirPago_abono a t (hpos a (List.mem_cons_self _ _))]
    rw [show (do
        let x ← (Except.ok a.montoCents : Except SalesError ℤ)
        let xs ← (rest.map pagoDeAbono).mapM (fun p => convertirPagoACents p t)
        pure (x :: xs)) =
      ((rest.map pagoDeAbono).mapM (fun p => convertirPagoACents p t)).map
        (fun xs => a.montoCents :: xs) from rfl]
    rw [ih (fun a' ha' => hpos a' (List.mem_cons_of_mem _ ha'))]
    rfl

/-- `mapM` over an append, in `Except`, from the two halves' successes. -/
theorem mapM_append_ok {α β : Type} (f : α → Except SalesError β)
    {l₁ l₂ : List α} {v₁ v₂ : List β}
    (h₁ : l₁.mapM f = .ok v₁) (h₂ : l₂.mapM f = .ok v₂) :
    (l₁ ++ l₂).mapM f = .ok (v₁ ++ v₂) := by
  rw [List.mapM_append, h₁]
  rw [show (do
      let x ← (Except.ok v₁ : Except SalesError (List β))
      let xs ← l₂.mapM f
      pure (x ++ xs)) = (l₂.mapM f).map (fun xs => v₁ ++ xs) from rfl]
  rw [h₂]
  rfl

/-- C7: for a stored order whose locked cart prices successfully (`detalles`),
whose deposits are all positive, and whose additional payments normalize and
convert successfully (`pnF`, `convF`) — with at least one payment overall, no
finalization discount, a non-empty locked cart, and a non-negative re-priced
total — finalization succeeds exactly when the order is `PENDIENTE` and the
deposit sum `D` plus the converted additional-payment sum `P` covers the
re-priced total `T`; it fails with `orderNotPending` otherwise-pending and
with `insufficientPayment` when `D + P < T`; and on success the order becomes
`ENTREGADO` linked to the single new sale appended to the store, inside the
same transaction. -/
theorem C7_finalize_iff_covered
    (db : DB) (fb : Option ℚ) (vid encargoId : String)
    (pagosFinales pnF : List DetallePago) (u : String)
    (encargo : Encargo) (convF : List ℤ) (detalles : List Detalle)
    (hu : (trimChars u).isEmpty = false)
    (hE : findEncargo db encargoId = some encargo)
    (hitems : encargo.items ≠ [])
    (habonos : ∀ a ∈ encargo.abonos, 0 < a.montoCents)
    (hpago_ne : encargo.abonos ≠ [] ∨ pagosFinales ≠ [])
    (hdet : (encargo.items.map itemDeEncargo).mapM (construirDetalle db) = .ok detalles)
    (hpnF : pagosFinales.mapM
      (fun p => normalizarPago p (obtenerTasaCambio db.configTasaCambio fb)) = .ok pnF)
    (hconvF : pnF.mapM
      (fun p => convertirPagoACents p (obtenerTasaCambio db.configTasaCambio fb)) = .ok convF)
    (hT : 0 ≤ (detalles.map (·.subtotalCents)).sum) :
    (encargo.estado ≠ .pendiente →
      finalizarEncargo db fb vid encargoId pagosFinales u none =
        (db, .error .orderNotPending)) ∧
    (encargo.estado = .pendiente →
      (detalles.map (·.subtotalCents)).sum ≤
        (encargo.abonos.map (·.montoCents)).sum + convF.sum →
      finalizarEncargo db fb vid encargoId pagosFinales u none =
        ({ db with
             productos := aplicarDecrementos db.productos detalles,
             ventas := db.ventas ++
               [ventaDe vid detalles (encargo.abonos.map pagoDeAbono ++ pnF) u
                 .encargo none (some encargoId)],
             encargos := updateEncargo db.encargos encargoId (fun e =>
               { e with estado := .entregado, ventaId := some vid }) },
         .ok ({ venta := ventaDe vid detalles
                  (encargo.abonos.map pagoDeAbono ++ pnF) u .encargo none
                  (some encargoId),
                cambioCents := (encargo.abonos.map (·.montoCents)).sum + convF.sum
                  - (detalles.map (·.subtotalCents)).sum },
              { encargo with estado := .entregado, ventaId := some vid })) ∧
      (ventaDe vid detalles (encargo.abonos.map pagoDeAbono ++ pnF) u .encargo
        none (some encargoId)).encargoId = some encargoId ∧
      (ventaDe vid detalles (encargo.abonos.map pagoDeAbono ++ pnF) u .encargo
        none (some encargoId)).id = vid ∧
      ({ encargo with estado := .entregado, ventaId := some vid }).estado =
        .entregado ∧
      ({ encargo with estado := .entregado, ventaId := some vid }).ventaId =
        some vid) ∧
    (encargo.estado = .pendiente →
      (encargo.abonos.map (·.montoCents)).sum + convF.sum <
        (detalles.map (·.subtotalCents)).sum →
      finalizarEncargo db fb vid encargoId pagosFinales u none =
        (db, .error .insufficientPayment)) ∧
    (∀ dbF res enc',
      finalizarEncargo db fb vid encargoId pagosFinales u none =
        (dbF, .ok (res, enc')) →
      encargo.estado = .pendiente ∧
      (detalles.map (·.subtotalCents)).sum ≤
        (encargo.abonos.map (·.montoCents)).sum + convF.sum) := by
  have hid : encargo.id = encargoId := by
    have h2 := List.find?_some hE
    exact of_decide_eq_true h2
  have hpnAll : (encargo.abonos.map pagoDeAbono ++ pagosFinales).mapM
      (fun p => normalizarPago p (obtenerTasaCambio db.configTasaCambio fb)) =
      .ok (encargo.abonos.map pagoDeAbono ++ pnF) :=
    mapM_append_ok _ (mapM_normalizar_abonos _ _) hpnF
  have hconvAll : (encargo.abonos.map pagoDeAbono ++ pnF).mapM
      (fun p => convertirPagoACents p (obtenerTasaCambio db.configTasaCambio fb)) =
      .ok (encargo.abonos.map (·.montoCents) ++ convF) :=
    mapM_append_ok _ (mapM_convertir_abonos _ _ habonos) hconvF
  have hitemsne : (encargo.items.map itemDeEncargo).isEmpty = false := by
    cases hlist : encargo.items with
    | nil => exact absurd hlist hitems
    | cons a l => rfl
  have hpcne : (encargo.abonos.map pagoDeAbono ++ pagosFinales).isEmpty = false := by
    rcases hpago_ne with hne | hne
    · cases hlist : encargo.abonos with
      | nil => exact absurd hlist hne
      | cons a l => rfl
    · cases hlist : encargo.abonos with
      | nil =>
        cases hlist2 : pagosFinales with
        | nil => exact absurd hlist2 hne
        | cons a l => rfl
      | cons a l => rfl
  have hmin : min (round ((none : Option ℚ).getD 0))
      (detalles.map (·.subtotalCents)).sum = 0 := by
    simp only [Option.getD_none, round_zero]
    exact min_eq_left hT
  refine ⟨?_, ?_, ?_, ?_⟩
  · intro hnp
    unfold finalizarEncargo
    rw [if_neg (by simp [hu])]
    apply withTursoTransaction_of_error
    rw [hE]
    dsimp only
    rw [if_pos hnp]
  · intro hp hcov
    have hpayneg : ¬ (encargo.abonos.map (·.montoCents) ++ convF).sum <
        (detalles.map (·.subtotalCents)).sum -
          min (round ((none : Option ℚ).getD 0)) (detalles.map (·.subtotalCents)).sum := by
      rw [List.sum_append, hmin, sub_zero]
      exact not_lt.mpr hcov
    have hok := crearVenta_eq_ok vid u .encargo (some encargoId)
      hpnAll hdet (by simp) hconvAll hpayneg
    have hfin : finalizarEncargo db fb vid encargoId pagosFinales u none =
        ({ db with
             productos := aplicarDecrementos db.productos detalles,
             ventas := db.ventas ++
               [ventaDe vid detalles (encargo.abonos.map pagoDeAbono ++ pnF) u
                 .encargo none (some encargoId)],
             encargos := updateEncargo db.encargos encargoId (fun e =>
               { e with estado := .entregado, ventaId := some vid }) },
         .ok ({ venta := ventaDe vid detalles
                  (encargo.abonos.map pagoDeAbono ++ pnF) u .encargo none
                  (some encargoId),
                cambioCents := (encargo.abonos.map (·.montoCents) ++ convF).sum -
                  ((detalles.map (·.subtotalCents)).sum -
                    min (round ((none : Option ℚ).getD 0))
                      (detalles.map (·.subtotalCents)).sum) },
              { encargo with estado := .entregado, ventaId := some vid })) := by
      unfold finalizarEncargo
      rw [if_neg (by simp [hu])]
      apply withTursoTransaction_of_ok
      rw [hE]
      dsimp only
      rw [if_neg (by simp [hp])]
      rw [if_neg (by simp [hitemsne])]
      rw [if_neg (by simp [hpcne])]
      rw [hok]
      dsimp only
      have hre : findEncargo
          { { db with
                productos := aplicarDecrementos db.productos detalles,
                ventas := db.ventas ++
                  [ventaDe vid detalles (encargo.abonos.map pagoDeAbono ++ pnF) u
                    .encargo none (some encargoId)] } with
            encargos := updateEncargo db.encargos encargoId (fun e =>
              { e with estado := .entregado, ventaId := some vid }) } encargoId =
          some { encargo with estado := .entregado, ventaId := some vid } := by
        show (updateEncargo db.encargos encargoId
            (fun e => { e with estado := .entregado, ventaId := some vid })).find?
            (fun e => e.id = encargoId) = _
        rw [findEncargo_updateEncargo db.encargos encargoId encargoId
          (fun e => { e with estado := .entregado, ventaId := some vid })
          (fun e => rfl)]
        rw [show db.encargos.find? (fun e => e.id = encargoId) = some encargo from hE]
        rw [Option.map_some', if_pos hid]
      rw [hre]
    rw [hfin]
    refine ⟨?_, rfl, rfl, rfl, rfl⟩
    rw [List.sum_append, hmin, sub_zero]
  · intro hp hshort
    have hpaylt : (encargo.abonos.map (·.montoCents) ++ convF).sum <
        (detalles.map (·.subtotalCents)).sum -
          min (round ((none : Option ℚ).getD 0)) (detalles.map (·.subtotalCents)).sum := by
      rw [List.sum_append, hmin, sub_zero]
      exact hshort
    have hbad := crearVenta_eq_insufficient vid u .encargo (some encargoId)
      hpnAll hdet (by simp) hconvAll hpaylt
    unfold finalizarEncargo
    rw [if_neg (by simp [hu])]
    apply withTursoTransaction_of_error
    rw [hE]
    dsimp only
    rw [if_neg (by simp [hp])]
    rw [if_neg (by simp [hitemsne])]
    rw [if_neg (by simp [hpcne])]
    rw [hbad]
  · intro dbF res enc' h
    obtain ⟨encargo2, tx', hE2, hp2, hcv, hdb2, hre2⟩ := finalizarEncargo_ok_elim h
    have henc2 : encargo2 = encargo := by
      have h2 := hE2.symm.trans hE
      exact Option.some_injective _ h2
    subst henc2
    obtain ⟨pn2, det2, conv2, hpn2, hdet2, _, hconv2, hpay2, _, _⟩ :=
      crearVenta_ok_elim hcv
    have hdeteq : det2 = detalles := by
      have h2 := hdet.symm.trans hdet2
      injection h2 with h3
      exact h3.symm
    subst hdeteq
    have hpneq : pn2 = encargo2.abonos.map pagoDeAbono ++ pnF := by
      have h2 := hpnAll.symm.trans hpn2
      injection h2 with h3
      exact h3.symm
    subst hpneq
    have hconveq : conv2 = encargo2.abonos.map (·.montoCents) ++ convF := by
      have h2 := hconvAll.symm.trans hconv2
      injection h2 with h3
      exact h3.symm
    subst hconveq
    refine ⟨hp2, ?_⟩
    rw [List.sum_append, hmin, sub_zero] at hpay2
    exact not_lt.mp hpay2

/-- Witness for C7: finalizing the pending order `encPan` (re-priced total 200
cents, deposits 100) with one extra 100-cent NIO payment succeeds, delivers
the order and links it to the single new sale. -/
theorem C7_witness :
    (finalizarEncargo dbEnc none "v7" "o1" [pagoNIO1] "u" none =
      ({ dbEnc with
           productos := aplicarDecrementos dbEnc.productos [detPan2],
           ventas := dbEnc.ventas ++
             [ventaDe "v7" [detPan2] (encPan.abonos.map pagoDeAbono ++ [pagoNIO1])
               "u" .encargo none (some "o1")],
           encargos := updateEncargo dbEnc.encargos "o1" (fun e =>
             { e with estado := .entregado, ventaId := some "v7" }) },
       .ok ({ venta := ventaDe "v7" [detPan2]
                (encPan.abonos.map pagoDeAbono ++ [pagoNIO1]) "u" .encargo none
                (some "o1"),
              cambioCents := (encPan.abonos.map (·.montoCents)).sum +
                [(100:ℤ)].sum - (([detPan2]).map (·.subtotalCents)).sum },
            { encPan with estado := .entregado, ventaId := some "v7" }))) ∧
    (ventaDe "v7" [detPan2] (encPan.abonos.map pagoDeAbono ++ [pagoNIO1]) "u"
      .encargo none (some "o1")).encargoId = some "o1" ∧
    (ventaDe "v7" [detPan2] (encPan.abonos.map pagoDeAbono ++ [pagoNIO1]) "u"
      .encargo none (some "o1")).id = "v7" ∧
    ({ encPan with estado := .entregado, ventaId := some "v7" }).estado =
      .entregado ∧
    ({ encPan with estado := .entregado, ventaId := some "v7" }).ventaId =
      some "v7" :=
  (C7_finalize_iff_covered dbEnc none "v7" "o1" [pagoNIO1] [pagoNIO1] "u"
    encPan [(100:ℤ)] [detPan2]
    (by decide) rfl
    (by norm_num [encPan])
    (by norm_num [encPan])
    (Or.inl (by norm_num [encPan]))
    (by norm_num +decide [List.mapM, List.mapM.loop, Bind.bind, Except.bind,
      pure, Except.pure, construirDetalle, findProducto, dbEnc, prodPan,
      resolverPrecio, Option.orElse, toCents, round_eq, itemDeEncargo, encPan,
      detPan2])
    (by norm_num +decide [List.mapM, List.mapM.loop, Bind.bind, Except.bind,
      pure, Except.pure, normalizarPago, obtenerTasaCambio, normalizeMoneda,
      trimChars, toUpperChars, pagoNIO1, dbEnc])
    (by norm_num +decide [List.mapM, List.mapM.loop, Bind.bind, Except.bind,
      pure, Except.pure, convertirPagoACents, obtenerTasaCambio, normalizeMoneda,
      trimChars, toUpperChars, toCents, round_eq, pagoNIO1, dbEnc])
    (by norm_num [detPan2])).2.1 rfl
    (by norm_num [encPan, detPan2])

end SistAlici
